import Mathlib

/-!
Shallow embedding of the mockexchange order-execution engine
(`src/mockexchange/engine_actors.py`, with `orderbook.py`, `market.py`,
`constants.py`).  Monetary quantities are embedded as rationals (`ℚ`);
the Python code uses IEEE-754 doubles, whose arithmetic identities the
claims state exactly, so exact rational arithmetic is the faithful
reading.  Stateful code is embedded as explicit state passing; Python
exceptions become `Except` errors; the random Gaussian draw and the
wall-clock timestamps become explicit parameters.
-/

/-- `OrderSide` from `constants.py`. -/
inductive OrderSide where
  | buy
  | sell
deriving DecidableEq, Repr

/-- `OrderType` from `constants.py`. -/
inductive OrderType where
  | market
  | limit
deriving DecidableEq, Repr

/-- `OrderState` from `constants.py`. -/
inductive OrderState where
  | new
  | partially_filled
  | filled
  | partially_canceled
  | canceled
  | partially_expired
  | expired
  | partially_rejected
  | rejected
deriving DecidableEq, Repr

/-- `OPEN_STATUS = {NEW, PARTIALLY_FILLED}` from `constants.py`. -/
def OrderState.isOpen : OrderState → Bool
  | .new => true
  | .partially_filled => true
  | _ => false

/-- A trading symbol `BASE/QUOTE`; `symbol.split("/")` in the source
becomes the two projections. -/
structure SymbolPair where
  base : String
  quote : String
deriving DecidableEq, Repr

/-- `AssetBalance` from `_types.py`: one row inside the portfolio hash. -/
structure AssetBalance where
  asset : String
  free : ℚ
  used : ℚ
deriving DecidableEq, Repr

/-- Derived `total = free + used` (`_types.py`). -/
def AssetBalance.total (b : AssetBalance) : ℚ := b.free + b.used

/-- The portfolio hash: asset name ↦ `(free, used)`.
Modelled from the spec: `portfolio.py` is not under `src/` (only its
callers are); §4.3 specifies `get(asset)` defaulting to a zero balance
when absent and `set(balance)` as an atomic overwrite keyed by the
asset name. -/
def PortfolioMap := String → ℚ × ℚ

/-- `Portfolio.get`: returns the stored balance, zero if absent
(spec §4.3), reconstructed under the asset's own name. -/
def PortfolioMap.get (p : PortfolioMap) (a : String) : AssetBalance :=
  ⟨a, (p a).1, (p a).2⟩

/-- `Portfolio.set`: overwrite the row keyed by `bal.asset` (spec §4.3). -/
def PortfolioMap.set (p : PortfolioMap) (b : AssetBalance) : PortfolioMap :=
  fun a => if a = b.asset then (b.free, b.used) else p a

/-- The dust threshold `1e-10` of `ExchangeEngineActor._release`. -/
def dustEps : ℚ := 1 / 10 ^ 10

/-- The balance-level body of `ExchangeEngineActor._release`
(`engine_actors.py` lines 150-161): move `min(qty, used)` from
`used` to `free`; afterwards, if `free` is nonzero (Python truthiness
of `bal.free`) and `used / free < 1e-10`, snap `used` to `0`.
Returns the quantity actually moved together with the new balance. -/
def releaseBal (b : AssetBalance) (qty : ℚ) : ℚ × AssetBalance :=
  let q := if b.used < qty then b.used else qty
  let used1 := b.used - q
  let free1 := b.free + q
  let used2 := if free1 ≠ 0 ∧ used1 / free1 < dustEps then 0 else used1
  (q, ⟨b.asset, free1, used2⟩)

/-- `ExchangeEngineActor._release` lifted to the portfolio: load the
balance, apply `releaseBal`, store it back. -/
def releaseP (p : PortfolioMap) (a : String) (qty : ℚ) : ℚ × PortfolioMap :=
  let r := releaseBal (p.get a) qty
  (r.1, p.set r.2)

/-- `ExchangeEngineActor._reserve` (`engine_actors.py` lines 142-148):
move `qty` from `free` to `used`, failing when `free < qty`. -/
def reserveP (p : PortfolioMap) (a : String) (qty : ℚ) : Option PortfolioMap :=
  let b := p.get a
  if b.free < qty then none
  else some (p.set ⟨b.asset, b.free - qty, b.used + qty⟩)

/-- `ExchangeEngineActor._slippage_simulate` (`engine_actors.py` lines
163-176) with the Gaussian draw `r` made explicit: clamp the draw to
`[0, 1]` (mean `1.0`) and scale the requested amount by it. -/
def slippage_simulate (amount : ℚ) (r : ℚ) : ℚ :=
  let rn := if r < 0 then 0 else if r > 1 then 1 else r
  amount * rn

/-- C6: `_release` moves exactly `min(qty, used)` from `used` to `free`,
never makes `free` or `used` negative, returns the quantity moved, and
afterwards, whenever `free > 0` and `used / free < 10⁻¹⁰`, the `used`
field is exactly `0` (dust elimination). -/
theorem release_moves_min_and_clamps_dust (b : AssetBalance) (qty : ℚ)
    (hf : 0 ≤ b.free) (hu : 0 ≤ b.used) (hq : 0 ≤ qty) :
    (releaseBal b qty).1 = min qty b.used ∧
    (releaseBal b qty).2.free = b.free + min qty b.used ∧
    0 ≤ (releaseBal b qty).2.free ∧
    0 ≤ (releaseBal b qty).2.used ∧
    ((releaseBal b qty).2.used = b.used - min qty b.used ∨
      (releaseBal b qty).2.used = 0) ∧
    (0 < (releaseBal b qty).2.free →
      (releaseBal b qty).2.used / (releaseBal b qty).2.free < dustEps →
      (releaseBal b qty).2.used = 0) := by
  unfold releaseBal
  rcases lt_or_le b.used qty with h | h
  · have hmin : min qty b.used = b.used := min_eq_right h.le
    rw [if_pos h]
    refine ⟨hmin.symm, ?_, ?_, ?_, ?_, ?_⟩
    · simp [hmin]
    · simpa [hmin] using add_nonneg hf hu
    · dsimp only
      split
      · exact le_refl 0
      · simp
    · dsimp only
      split
      · right; rfl
      · left; simp [hmin]
    · dsimp only
      split
      · intro _ _
        rfl
      · rename_i hcond
        intro hpos hlt
        exact absurd ⟨ne_of_gt hpos, hlt⟩ hcond
  · have hmin : min qty b.used = qty := min_eq_left h
    rw [if_neg (not_lt.mpr h)]
    refine ⟨hmin.symm, ?_, ?_, ?_, ?_, ?_⟩
    · simp [hmin]
    · simpa [hmin] using add_nonneg hf hq
    · dsimp only
      split
      · exact le_refl 0
      · simpa [hmin] using h
    · dsimp only
      split
      · right; rfl
      · left; simp [hmin]
    · dsimp only
      split
      · intro _ _
        rfl
      · rename_i hcond
        intro hpos hlt
        exact absurd ⟨ne_of_gt hpos, hlt⟩ hcond

/-- Witness for C6 at `b = ⟨"USDT", 5, 3⟩`, `qty = 2`. -/
theorem release_moves_min_and_clamps_dust_witness :
    (releaseBal ⟨"USDT", 5, 3⟩ 2).1 = min 2 (3 : ℚ) ∧
    (releaseBal ⟨"USDT", 5, 3⟩ 2).2.free = 5 + min 2 (3 : ℚ) ∧
    0 ≤ (releaseBal ⟨"USDT", 5, 3⟩ 2).2.free ∧
    0 ≤ (releaseBal ⟨"USDT", 5, 3⟩ 2).2.used ∧
    ((releaseBal ⟨"USDT", 5, 3⟩ 2).2.used = 3 - min 2 (3 : ℚ) ∨
      (releaseBal ⟨"USDT", 5, 3⟩ 2).2.used = 0) ∧
    (0 < (releaseBal ⟨"USDT", 5, 3⟩ 2).2.free →
      (releaseBal ⟨"USDT", 5, 3⟩ 2).2.used / (releaseBal ⟨"USDT", 5, 3⟩ 2).2.free < dustEps →
      (releaseBal ⟨"USDT", 5, 3⟩ 2).2.used = 0) :=
  release_moves_min_and_clamps_dust ⟨"USDT", 5, 3⟩ 2
    (by norm_num) (by norm_num) (by norm_num)

/-- The human-readable comment messages the engine attaches to orders.
The Python source builds f-strings; each constructor records the message
template together with the numbers interpolated into it. -/
inductive OrderComment where
  | needQuote (need has : ℚ) (asset : String)
  | needBase (need has : ℚ) (asset : String)
  | andNeedFee (c : OrderComment) (need has : ℚ) (asset : String)
  | canceledByUser
  | expiredInactivity
  | insufficientReserveBuy (need has : ℚ) (asset : String)
  | insufficientReserveSellBase (need has : ℚ) (asset : String)
  | insufficientReserveSellFee (need has : ℚ) (asset : String)
deriving DecidableEq, Repr

/-- One `history` entry.  Modelled from the spec: the `Order` class with
its history log is not under `src/` (the `_types.py` present is an older
revision without it); §3 specifies `history[]` as an append-only log of
state changes `{ts, status, optional fill details, optional comment}`,
and the call sites in `engine_actors.py` fix the field names. -/
structure HistoryEntry where
  ts : ℕ
  status : OrderState
  comment : Option OrderComment := none
  price : Option ℚ := none
  amount_remain : Option ℚ := none
  actual_filled : Option ℚ := none
  actual_notion : Option ℚ := none
  actual_fee : Option ℚ := none
  reserved_notion_left : Option ℚ := none
  reserved_fee_left : Option ℚ := none
deriving DecidableEq, Repr

/-- The order record.  Field list modelled from the spec §3 (the full
`Order` class is not under `src/`); every field is exercised by the
`engine_actors.py` call sites embedded below. -/
structure Order where
  id : String
  symbol : SymbolPair
  side : OrderSide
  type : OrderType
  amount : ℚ
  limit_price : Option ℚ
  notion_currency : String
  fee_currency : String
  fee_rate : ℚ
  price : Option ℚ := none
  status : OrderState
  initial_booked_notion : ℚ := 0
  reserved_notion_left : ℚ := 0
  initial_booked_fee : ℚ := 0
  reserved_fee_left : ℚ := 0
  actual_filled : ℚ := 0
  actual_notion : ℚ := 0
  actual_fee : ℚ := 0
  ts_create : ℕ
  ts_update : ℕ
  ts_finish : Option ℕ := none
  comment : Option OrderComment := none
  history : List HistoryEntry := []
deriving DecidableEq, Repr

/-- Derived `amount_remain = amount - actual_filled` (spec §3). -/
def Order.amount_remain (o : Order) : ℚ := o.amount - o.actual_filled

/-- Derived `residual_base = amount_remain` for the sell side (spec §3). -/
def Order.residual_base (o : Order) : ℚ := o.amount_remain

/-- Derived `residual_quote = reserved_notion_left + reserved_fee_left`
(spec §3). -/
def Order.residual_quote (o : Order) : ℚ :=
  o.reserved_notion_left + o.reserved_fee_left

/-- `squash_booking`: on any transition to CLOSED the residual bookings
are squashed to 0 (spec §4.5). -/
def Order.squash_booking (o : Order) : Order :=
  { o with reserved_notion_left := 0, reserved_fee_left := 0 }

/-- `add_history`: append one entry to the order's history (spec §3:
append-only log). -/
def Order.add_history (o : Order) (e : HistoryEntry) : Order :=
  { o with history := o.history ++ [e] }

/-- `TradingPair` snapshot (spec §3; the dataclass itself is not under
`src/`, but `market.py` constructs exactly these fields). -/
structure TradingPair where
  symbol : SymbolPair
  price : ℚ
  timestamp : ℕ
  bid : ℚ
  ask : ℚ
  bid_volume : ℚ
  ask_volume : ℚ
deriving DecidableEq, Repr

/-- The market store of `market.py`: the collection of `sym_<PAIR>`
hashes, one `TradingPair` per known symbol. -/
abbrev MarketStore := List TradingPair

/-- `Market.fetch_ticker`: the stored pair for a symbol, if any. -/
def MarketStore.fetch_ticker (m : MarketStore) (s : SymbolPair) : Option TradingPair :=
  m.find? (fun tp => tp.symbol = s)

/-- Membership in `Market.tickers` (the scan over `sym_*` keys). -/
def MarketStore.hasTicker (m : MarketStore) (s : SymbolPair) : Bool :=
  (m.fetch_ticker s).isSome

/-- `Market.last_price`: price of the stored ticker (`market.py` raises
when absent; callers observe `none` as that error). -/
def MarketStore.lastPrice (m : MarketStore) (s : SymbolPair) : Option ℚ :=
  (m.fetch_ticker s).map (fun tp => tp.price)

/-- The base legs of all known tickers, as used by
`_get_tradeable_assetslist_tickerslist_from_current_market`
(`engine_actors.py` lines 869-881). -/
def MarketStore.baseAssets (m : MarketStore) : List String :=
  m.map (fun tp => tp.symbol.base)

/-- `Market.set_last_price`: upsert the full field set for the pair's
symbol (`market.py`: `hset` with every non-nil field). -/
def MarketStore.setPair (m : MarketStore) (tp : TradingPair) : MarketStore :=
  if m.any (fun x => x.symbol = tp.symbol) then
    m.map (fun x => if x.symbol = tp.symbol then tp else x)
  else m ++ [tp]

/-- The order store of `orderbook.py`: the `orders` hash plus the two
open-order secondary indexes `open:set` and `open:{sym}`. -/
structure OrderBook where
  orders : String → Option Order
  openAll : String → Bool
  openSym : SymbolPair → String → Bool

/-- `OrderBook._index_add` (`orderbook.py`): insert the id into both
open indexes, but only when the order is OPEN. -/
def OrderBook.indexAdd (ob : OrderBook) (o : Order) : OrderBook :=
  if o.status.isOpen then
    { ob with
      openAll := fun i => if i = o.id then true else ob.openAll i,
      openSym := fun s i => if s = o.symbol ∧ i = o.id then true else ob.openSym s i }
  else ob

/-- `OrderBook._index_rem` (`orderbook.py`): remove the id from both
open indexes. -/
def OrderBook.indexRem (ob : OrderBook) (o : Order) : OrderBook :=
  { ob with
    openAll := fun i => if i = o.id then false else ob.openAll i,
    openSym := fun s i => if s = o.symbol ∧ i = o.id then false else ob.openSym s i }

/-- `OrderBook.add`: write the record, then `_index_add`. -/
def OrderBook.add (ob : OrderBook) (o : Order) : OrderBook :=
  OrderBook.indexAdd
    { ob with orders := fun i => if i = o.id then some o else ob.orders i } o

/-- `OrderBook.update`: rewrite the record.  It does **not** touch the
open indexes (`orderbook.py` lines 52-54). -/
def OrderBook.update (ob : OrderBook) (o : Order) : OrderBook :=
  { ob with orders := fun i => if i = o.id then some o else ob.orders i }

/-- `OrderBook.remove`: delete the record; if it was open, drop it from
the indexes first (`orderbook.py`). -/
def OrderBook.remove (ob : OrderBook) (oid : String) : OrderBook :=
  match ob.orders oid with
  | none => ob
  | some o =>
    let ob1 := if o.status.isOpen then ob.indexRem o else ob
    { ob1 with orders := fun i => if i = oid then none else ob1.orders i }

/-- `OrderBook.clear`: the empty store. -/
def OrderBook.empty : OrderBook :=
  ⟨fun _ => none, fun _ => false, fun _ _ => false⟩

/-- The compact trade counters of `_update_trade_stats`
(`engine_actors.py` lines 236-280): per `(side, base)` hash keyed by
quote (fee keyed by the fee asset). -/
structure TradeStats where
  count : OrderSide → String → String → ℕ
  amount : OrderSide → String → String → ℚ
  notional : OrderSide → String → String → ℚ
  fee : OrderSide → String → String → ℚ

/-- Pointwise `hincrbyfloat` on one counter family. -/
def bumpQ (f : OrderSide → String → String → ℚ) (s : OrderSide)
    (b k : String) (d : ℚ) : OrderSide → String → String → ℚ :=
  fun s1 b1 k1 => if s1 = s ∧ b1 = b ∧ k1 = k then f s1 b1 k1 + d else f s1 b1 k1

/-- `_update_trade_stats`: bump `count` only when the fill is the first
for its order, always bump `amount`, `notional` and `fee`. -/
def updateTradeStats (t : TradeStats) (side : OrderSide) (base quote : String)
    (amount notional fee : ℚ) (assetFee : String) (isNew : Bool) : TradeStats :=
  { count := if isNew then
      (fun s1 b1 k1 => if s1 = side ∧ b1 = base ∧ k1 = quote
        then t.count s1 b1 k1 + 1 else t.count s1 b1 k1)
      else t.count,
    amount := bumpQ t.amount side base quote amount,
    notional := bumpQ t.notional side base quote notional,
    fee := bumpQ t.fee side base assetFee fee }

/-- A `deposits:<asset>` / `withdrawals:<asset>` investment account
(`engine_actors.py` lines 282-331). -/
structure InvestAccount where
  ref_symbol : Option String := none
  asset_quantity : ℚ := 0
  ref_value : ℚ := 0
deriving DecidableEq, Repr

/-- Engine configuration: the commission rate and the cash asset. -/
structure Config where
  commission : ℚ
  cash_asset : String

/-- The errors the engine can raise (Python `ValueError` /
`RuntimeError` / `AssertionError`, distinguished by message). -/
inductive EngErr where
  | unknownTicker
  | badAmount
  | badLimitPrice
  | missingLimitPrice
  | insufficientToReserve (asset : String)
  | orderNotFound
  | onlyOpenCanBeCanceled
  | assertionFailed
  | tickerNotAvailable
  | notTradeable (asset : String)
  | insufficientBalance
  | badFreeUsed
  | divisionByZero
deriving DecidableEq, Repr

/-- The whole durable state owned by `ExchangeEngineActor`. -/
structure EngineState where
  portfolio : PortfolioMap
  book : OrderBook
  market : MarketStore
  stats : TradeStats
  deposits : String → InvestAccount
  withdrawals : String → InvestAccount

/-- The guard `limit_price is None or limit_price < 0` of
`create_order`'s validation. -/
def badLimitArg : Option ℚ → Bool
  | none => true
  | some lp => decide (lp < 0)

/-- `ExchangeEngineActor.create_order` (`engine_actors.py` lines
470-588).  `ts` is the creation timestamp and `oid` the generated id;
the async market-settle scheduling has no effect on durable state and
is represented by the separate `process_single_order` step. -/
def create_order (cfg : Config) (st : EngineState) (symbol : SymbolPair)
    (side : OrderSide) (type_ : OrderType) (amount : ℚ)
    (limit_price : Option ℚ) (ts : ℕ) (oid : String) :
    Except EngErr (EngineState × Order) :=
  if ¬ st.market.hasTicker symbol then .error .unknownTicker
  else if amount ≤ 0 then .error .badAmount
  else if type_ = .limit ∧ badLimitArg limit_price then .error .badLimitPrice
  else
    match st.market.lastPrice symbol with
    | none => .error .tickerNotAvailable
    | some last =>
      let px : ℚ :=
        match type_, limit_price with
        | .market, _ => last
        | .limit, none => last
        | .limit, some lp => if side = .buy then lp else max lp last
      let base := symbol.base
      let quote := symbol.quote
      let notion := amount * px
      let fee := amount * px * cfg.commission
      let fundsCheck : Bool × Option OrderComment :=
        match side with
        | .buy =>
          let haveQ := (st.portfolio.get quote).free
          if haveQ ≥ notion + fee then (true, none)
          else (false, some (.needQuote (notion + fee) haveQ quote))
        | .sell =>
          let haveB := (st.portfolio.get base).free
          let e1 : Bool := haveB ≥ amount
          let c1 : Option OrderComment :=
            if haveB ≥ amount then none
            else some (.needBase amount haveB base)
          let haveQ := (st.portfolio.get quote).free
          if haveQ ≥ fee then (e1, c1)
          else (e1, some (match c1 with
            | none => .needQuote fee haveQ quote
            | some c => .andNeedFee c fee haveQ quote))
      let enough := fundsCheck.1
      let comment := fundsCheck.2
      let reserved : Except EngErr PortfolioMap :=
        if enough then
          match side with
          | .buy =>
            match reserveP st.portfolio quote (notion + fee) with
            | none => .error (.insufficientToReserve quote)
            | some p => .ok p
          | .sell =>
            match reserveP st.portfolio base amount with
            | none => .error (.insufficientToReserve base)
            | some p =>
              match reserveP p quote fee with
              | none => .error (.insufficientToReserve quote)
              | some p2 => .ok p2
        else .ok st.portfolio
      match reserved with
      | .error e => .error e
      | .ok p1 =>
        let booked_notion : ℚ := if side = .buy then notion else 0
        let status : OrderState := if enough then .new else .rejected
        let order : Order :=
          { id := oid
            symbol := symbol
            side := side
            type := type_
            amount := amount
            limit_price := if type_ = .market then none else limit_price
            notion_currency := quote
            fee_currency := quote
            fee_rate := cfg.commission
            status := status
            initial_booked_notion := if enough then booked_notion else 0
            reserved_notion_left := if enough then booked_notion else 0
            initial_booked_fee := if enough then fee else 0
            reserved_fee_left := if enough then fee else 0
            ts_create := ts
            ts_update := ts
            ts_finish := if status.isOpen then none else some ts
            comment := comment }
        .ok ({ st with portfolio := p1, book := st.book.add order }, order)

/-- `ExchangeEngineActor.cancel_order` (`engine_actors.py` lines
594-631).  The trailing Python `assert`s are embedded as a final check
(they can only fire after the book update has been persisted; no claim
exercises that path). -/
def cancel_order (st : EngineState) (oid : String) (ts : ℕ) :
    Except EngErr (EngineState × Order × ℚ × ℚ) :=
  match st.book.orders oid with
  | none => .error .orderNotFound
  | some o =>
    if ¬ o.status.isOpen then .error .onlyOpenCanBeCanceled
    else
      let base := o.symbol.base
      let quote := o.symbol.quote
      let rel : ℚ × ℚ × PortfolioMap :=
        match o.side with
        | .buy =>
          let rq := releaseP st.portfolio quote o.residual_quote
          (0, rq.1, rq.2)
        | .sell =>
          let rb := releaseP st.portfolio base o.residual_base
          let rq := releaseP rb.2 quote o.residual_quote
          (rb.1, rq.1, rq.2)
      let released_base := rel.1
      let released_quote := rel.2.1
      let p1 := rel.2.2
      let newStatus : OrderState :=
        if o.actual_filled = 0 then .canceled else .partially_canceled
      let o1 := { o with
        status := newStatus
        ts_finish := some ts
        ts_update := ts
        comment := some .canceledByUser }
      let o2 := (o1.add_history
        { ts := ts, status := newStatus, comment := some .canceledByUser }).squash_booking
      let assertsOk : Bool :=
        match o.side with
        | .buy => decide (-(1 / 10 ^ 9 : ℚ) ≤ o2.reserved_notion_left) &&
                  decide (-(1 / 10 ^ 9 : ℚ) ≤ o2.reserved_fee_left)
        | .sell => decide (-(1 / 10 ^ 9 : ℚ) ≤ o2.residual_base) &&
                   decide (-(1 / 10 ^ 9 : ℚ) ≤ o2.reserved_fee_left)
      if assertsOk then
        .ok ({ st with portfolio := p1, book := st.book.update o2 },
             o2, released_base, released_quote)
      else .error .assertionFailed

/-- `ExchangeEngineActor._rejected_for_insufficient_reserve`
(`engine_actors.py` lines 179-210): release whatever is still reserved,
set status to rejected / partially rejected, append history, squash the
residual booking, and persist the order. -/
def rejected_for_insufficient_reserve (st : EngineState) (o : Order)
    (reason : OrderComment) (ts : ℕ) : EngineState :=
  let base := o.symbol.base
  let quote := o.symbol.quote
  let p1 :=
    match o.side with
    | .buy => (releaseP st.portfolio quote o.residual_quote).2
    | .sell =>
      (releaseP (releaseP st.portfolio base o.residual_base).2
        quote o.residual_quote).2
  let newStatus : OrderState :=
    if o.actual_filled = 0 then .rejected else .partially_rejected
  let o1 := { o with
    status := newStatus
    ts_update := ts
    ts_finish := some ts
    comment := some reason }
  let o2 := (o1.add_history
    { ts := ts, status := newStatus, comment := some reason }).squash_booking
  { st with portfolio := p1, book := st.book.update o2 }

/-- `ExchangeEngineActor._execute_buy` (`engine_actors.py` lines
334-371).  Returns the new state with `(filled_notion, filled_fee)`. -/
def execute_buy (cfg : Config) (st : EngineState) (base quote : String)
    (fillable_amount price : ℚ) (order_is_new order_will_close : Bool)
    (residual_quote : ℚ) : EngineState × ℚ × ℚ :=
  let filled_notion := fillable_amount * price
  let filled_fee := filled_notion * cfg.commission
  let p1 :=
    if order_will_close then (releaseP st.portfolio quote residual_quote).2
    else (releaseP st.portfolio quote (filled_notion + filled_fee)).2
  let cash := p1.get quote
  let p2 := p1.set { cash with free := cash.free - (filled_notion + filled_fee) }
  let asset := p2.get base
  let p3 := p2.set { asset with free := asset.free + fillable_amount }
  let t1 := updateTradeStats st.stats .buy base quote
    fillable_amount filled_notion filled_fee quote order_is_new
  ({ st with portfolio := p3, stats := t1 }, filled_notion, filled_fee)

/-- `ExchangeEngineActor._execute_sell` (`engine_actors.py` lines
373-411). -/
def execute_sell (cfg : Config) (st : EngineState) (base quote : String)
    (fillable_amount price : ℚ) (order_is_new order_will_close : Bool)
    (residual_quote : ℚ) : EngineState × ℚ × ℚ :=
  let filled_notion := fillable_amount * price
  let filled_fee := filled_notion * cfg.commission
  let p1 := (releaseP st.portfolio base fillable_amount).2
  let asset := p1.get base
  let p2 := p1.set { asset with free := asset.free - fillable_amount }
  let p3 :=
    if order_will_close then (releaseP p2 quote residual_quote).2
    else (releaseP p2 quote filled_fee).2
  let cash := p3.get quote
  let p4 := p3.set { cash with free := cash.free + (filled_notion - filled_fee) }
  let t1 := updateTradeStats st.stats .sell base quote
    fillable_amount filled_notion filled_fee quote order_is_new
  ({ st with portfolio := p4, stats := t1 }, filled_notion, filled_fee)

/-- The `1e-12` epsilon of `process_single_order`'s guards. -/
def epsFill : ℚ := 1 / 10 ^ 12

/-- The fill-settlement tail of `process_single_order`
(`engine_actors.py` lines 706-759): run the side's executor, accumulate
the actuals, recompute the volume-weighted price, shrink reservations,
close or keep open, append history, persist. -/
def settle_fill (cfg : Config) (st : EngineState) (of : Order)
    (px fillable_amount : ℚ) (order_is_new order_will_close : Bool)
    (ts : ℕ) : EngineState :=
  let base := of.symbol.base
  let quote := of.symbol.quote
  let ex :=
    match of.side with
    | .buy => execute_buy cfg st base quote fillable_amount px
        order_is_new order_will_close of.residual_quote
    | .sell => execute_sell cfg st base quote fillable_amount px
        order_is_new order_will_close of.residual_quote
  let st1 := ex.1
  let filled_notion := ex.2.1
  let filled_fee := ex.2.2
  let total_filled := of.actual_filled + fillable_amount
  let total_notion := of.actual_notion + filled_notion
  let total_fee := of.actual_fee + filled_fee
  let o1 := { of with
    ts_update := ts
    actual_filled := total_filled
    actual_notion := total_notion
    actual_fee := total_fee
    price := some (if 0 < total_filled then total_notion / total_filled else px) }
  let o2 :=
    match of.side with
    | .buy => { o1 with
        reserved_notion_left := max (o1.reserved_notion_left - filled_notion) 0,
        reserved_fee_left := max (o1.reserved_fee_left - filled_fee) 0 }
    | .sell => { o1 with
        reserved_fee_left := max (o1.reserved_fee_left - filled_fee) 0 }
  let new_status : OrderState :=
    if order_will_close then .filled else .partially_filled
  let o3 :=
    if order_will_close then
      ({ o2 with ts_finish := some ts } : Order).squash_booking
    else o2
  let o4 := { o3 with status := new_status }
  let o5 := o4.add_history
    { ts := ts, status := new_status, price := some px,
      amount_remain := some o4.amount_remain,
      actual_filled := some fillable_amount,
      actual_notion := some filled_notion,
      actual_fee := some filled_fee,
      reserved_notion_left := some o4.reserved_notion_left,
      reserved_fee_left := some o4.reserved_fee_left }
  { st1 with book := st1.book.update o5 }

/-- `ExchangeEngineActor.process_single_order` (`engine_actors.py`
lines 634-759).  `r` is the Gaussian slippage draw and `ts` the
settlement timestamp. -/
def process_single_order (cfg : Config) (st : EngineState) (o : Order)
    (tp : TradingPair) (r : ℚ) (ts : ℕ) : Except EngErr EngineState :=
  match st.book.orders o.id with
  | none => .error .orderNotFound
  | some of =>
    if ¬ of.status.isOpen ∨ of.amount - epsFill ≤ of.actual_filled then .ok st
    else
      let need_amount := of.amount - of.actual_filled
      let order_is_new : Bool := of.status = .new
      let total_amount_available :=
        if of.side = .buy then tp.ask_volume else tp.bid_volume
      let amount_available := slippage_simulate total_amount_available r
      let fillable_amount :=
        if amount_available < need_amount then amount_available else need_amount
      let order_will_close : Bool := ¬ (amount_available < need_amount)
      if fillable_amount ≤ 0 then .ok st
      else
        let fillableE : Except EngErr Bool :=
          match of.type with
          | .market => .ok true
          | .limit =>
            match of.limit_price with
            | none => .error .missingLimitPrice
            | some lp =>
              .ok (decide ((of.side = .buy ∧ tp.ask ≤ lp) ∨
                           (of.side = .sell ∧ lp ≤ tp.bid)))
        match fillableE with
        | .error e => .error e
        | .ok fillable =>
          if ¬ fillable then .ok st
          else
            let base := of.symbol.base
            let quote := of.symbol.quote
            let px := if of.side = .buy then tp.ask else tp.bid
            match of.side with
            | .buy =>
              let need_quote := fillable_amount * px * (1 + cfg.commission)
              let total_q := (st.portfolio.get quote).total
              if total_q + epsFill < need_quote then
                .ok (rejected_for_insufficient_reserve st of
                  (.insufficientReserveBuy need_quote total_q quote) ts)
              else
                .ok (settle_fill cfg st of px fillable_amount
                  order_is_new order_will_close ts)
            | .sell =>
              let need_asset := fillable_amount
              let need_fee_q := fillable_amount * px * cfg.commission
              let total_a := (st.portfolio.get base).total
              let total_q := (st.portfolio.get quote).total
              if total_a + epsFill < need_asset then
                .ok (rejected_for_insufficient_reserve st of
                  (.insufficientReserveSellBase need_asset total_a base) ts)
              else if total_q + epsFill < need_fee_q then
                .ok (rejected_for_insufficient_reserve st of
                  (.insufficientReserveSellFee need_fee_q total_q quote) ts)
              else
                .ok (settle_fill cfg st of px fillable_amount
                  order_is_new order_will_close ts)

/-- One iteration of the inner loop of
`ExchangeEngineActor.expire_orders_older_than` (`engine_actors.py`
lines 810-838), applied to a single listed order. -/
def expire_single (st : EngineState) (o : Order) (now_ms cutoff : ℕ) :
    EngineState :=
  if o.status.isOpen then
    let expired_status : OrderState :=
      if o.status = .new then .expired else .partially_expired
    let base := o.symbol.base
    let quote := o.symbol.quote
    if o.ts_update < cutoff then
      let p1 :=
        match o.side with
        | .buy => (releaseP st.portfolio quote o.residual_quote).2
        | .sell =>
          (releaseP (releaseP st.portfolio base o.residual_base).2
            quote o.residual_quote).2
      let o1 := { o with
        status := expired_status
        ts_update := now_ms
        ts_finish := some now_ms
        reserved_notion_left := 0
        reserved_fee_left := 0
        comment := some .expiredInactivity }
      let o2 := o1.add_history
        { ts := now_ms, status := expired_status,
          comment := some .expiredInactivity }
      { st with portfolio := p1, book := st.book.update o2 }
    else st
  else st

/-- `ExchangeEngineActor._update_deposit_account` (`engine_actors.py`
lines 282-305): `ref_symbol` is written once, `asset_quantity` and
`ref_value` are incremented; the reference value is `amount` for the
cash asset, else `amount · last_price(asset/cash)` (the missing-price
error aborts before the pipeline executes). -/
def update_deposit_account (cfg : Config) (st : EngineState)
    (asset : String) (amount : ℚ) : Except EngErr EngineState :=
  let acc := st.deposits asset
  let value : Except EngErr ℚ :=
    if asset = cfg.cash_asset then .ok amount
    else match st.market.lastPrice ⟨asset, cfg.cash_asset⟩ with
      | none => .error .tickerNotAvailable
      | some pr => .ok (amount * pr)
  match value with
  | .error e => .error e
  | .ok v =>
    let acc1 : InvestAccount :=
      { ref_symbol := some (acc.ref_symbol.getD cfg.cash_asset),
        asset_quantity := acc.asset_quantity + amount,
        ref_value := acc.ref_value + v }
    .ok { st with deposits := fun a => if a = asset then acc1 else st.deposits a }

/-- `ExchangeEngineActor._update_withdrawal_account` (`engine_actors.py`
lines 307-331), the mirror of the deposit-account update. -/
def update_withdrawal_account (cfg : Config) (st : EngineState)
    (asset : String) (amount : ℚ) : Except EngErr EngineState :=
  let acc := st.withdrawals asset
  let value : Except EngErr ℚ :=
    if asset = cfg.cash_asset then .ok amount
    else match st.market.lastPrice ⟨asset, cfg.cash_asset⟩ with
      | none => .error .tickerNotAvailable
      | some pr => .ok (amount * pr)
  match value with
  | .error e => .error e
  | .ok v =>
    let acc1 : InvestAccount :=
      { ref_symbol := some (acc.ref_symbol.getD cfg.cash_asset),
        asset_quantity := acc.asset_quantity + amount,
        ref_value := acc.ref_value + v }
    .ok { st with withdrawals := fun a => if a = asset then acc1 else st.withdrawals a }

/-- `ExchangeEngineActor.deposit_asset` (`engine_actors.py` lines
1240-1274): tradeability check, positivity check, credit `free`, then
update the deposit account. -/
def deposit_asset (cfg : Config) (st : EngineState) (asset : String)
    (amount : ℚ) : Except EngErr (EngineState × AssetBalance) :=
  if asset ≠ cfg.cash_asset ∧ ¬ st.market.baseAssets.contains asset then
    .error (.notTradeable asset)
  else if amount ≤ 0 then .error .badAmount
  else
    let bal := st.portfolio.get asset
    let bal1 := { bal with free := bal.free + amount }
    let st1 := { st with portfolio := st.portfolio.set bal1 }
    match update_deposit_account cfg st1 asset amount with
    | .error e => .error e
    | .ok st2 => .ok (st2, bal1)

/-- `ExchangeEngineActor.withdrawal_asset` (`engine_actors.py` lines
1276-1318): tradeability check, load the balance (zero default),
positivity and sufficiency checks, debit `free`, then update the
withdrawal account. -/
def withdrawal_asset (cfg : Config) (st : EngineState) (asset : String)
    (amount : ℚ) : Except EngErr (EngineState × AssetBalance) :=
  if asset ≠ cfg.cash_asset ∧ ¬ st.market.baseAssets.contains asset then
    .error (.notTradeable asset)
  else
    let bal := st.portfolio.get asset
    if amount ≤ 0 then .error .badAmount
    else if bal.free < amount then .error .insufficientBalance
    else
      let bal1 := { bal with free := bal.free - amount }
      let st1 := { st with portfolio := st.portfolio.set bal1 }
      match update_withdrawal_account cfg st1 asset amount with
      | .error e => .error e
      | .ok st2 => .ok (st2, bal1)

/-- `ExchangeEngineActor.set_balance` (`engine_actors.py` lines
1206-1238). -/
def set_balance (cfg : Config) (st : EngineState) (asset : String)
    (free used : ℚ) : Except EngErr (EngineState × AssetBalance) :=
  if asset ≠ cfg.cash_asset ∧ ¬ st.market.baseAssets.contains asset then
    .error (.notTradeable asset)
  else if free < 0 ∨ used < 0 then .error .badFreeUsed
  else
    let st1 := { st with portfolio := st.portfolio.set ⟨asset, free, used⟩ }
    .ok (st1, st1.portfolio.get asset)

/-- The default-volume expression `10**12 / price` of `set_ticker`;
Python raises `ZeroDivisionError` when `price` is zero. -/
def defaultVolume (price : ℚ) : Except EngErr ℚ :=
  if price = 0 then .error .divisionByZero else .ok (10 ^ 12 / price)

/-- The Python expression `volume or dummy_notion / price` of
`set_ticker`: both an omitted argument (`None`) and `0` are falsy, so
both fall back to the default volume. -/
def resolveVolume (v : Option ℚ) (price : ℚ) : Except EngErr ℚ :=
  match v with
  | none => defaultVolume price
  | some x => if x = 0 then defaultVolume price else .ok x

/-- `ExchangeEngineActor.set_ticker` (`engine_actors.py` lines
1320-1349): resolve the volumes (bid first, as in the source), check
the ticker exists, write the full snapshot, read it back. -/
def set_ticker (st : EngineState) (symbol : SymbolPair) (price : ℚ)
    (bid_volume ask_volume : Option ℚ) (ts : ℕ) :
    Except EngErr (EngineState × TradingPair) :=
  match resolveVolume bid_volume price with
  | .error e => .error e
  | .ok bv =>
    match resolveVolume ask_volume price with
    | .error e => .error e
    | .ok av =>
      if ¬ st.market.hasTicker symbol then .error .unknownTicker
      else
        let tp : TradingPair :=
          { symbol := symbol, price := price, timestamp := ts,
            bid := price, ask := price, bid_volume := bv, ask_volume := av }
        let m1 := st.market.setPair tp
        match m1.fetch_ticker symbol with
        | none => .error .tickerNotAvailable
        | some t => .ok ({ st with market := m1 }, t)

/-- The all-zero trade counters (state after `reset`). -/
def zeroStats : TradeStats :=
  ⟨fun _ _ _ => 0, fun _ _ _ => 0, fun _ _ _ => 0, fun _ _ _ => 0⟩

/-- `ExchangeEngineActor.reset` (`engine_actors.py` lines 1395-1412):
clears the portfolio, the order book with its indexes, the trade
counters and the investment accounts; the market hashes persist. -/
def reset_state (st : EngineState) : EngineState :=
  { portfolio := fun _ => (0, 0)
    book := OrderBook.empty
    market := st.market
    stats := zeroStats
    deposits := fun _ => {}
    withdrawals := fun _ => {} }

/-- The clamped draw of `_slippage_simulate` stays in `[0, 1]`. -/
theorem slippage_factor_mem (r : ℚ) :
    0 ≤ (if r < 0 then (0 : ℚ) else if r > 1 then 1 else r) ∧
    (if r < 0 then (0 : ℚ) else if r > 1 then 1 else r) ≤ 1 := by
  split
  · exact ⟨le_refl 0, zero_le_one⟩
  · rename_i h0
    push_neg at h0
    split
    · exact ⟨zero_le_one, le_refl 1⟩
    · rename_i h1
      push_neg at h1
      exact ⟨h0, h1⟩

/-- C7: for every advertised volume `v ≥ 0` and every value of the
Gaussian draw `r`, the simulated slippage `slip(v, r)` lies in `[0, v]`
(a single fill never exceeds the advertised volume); and when the drawn
available amount is `≤ 0`, `process_single_order` returns with the
state unchanged. -/
theorem slippage_bounded_and_nonpositive_avail_aborts
    (cfg : Config) (st : EngineState) (o of : Order) (tp : TradingPair)
    (r : ℚ) (ts : ℕ) (v : ℚ) :
    (0 ≤ v → 0 ≤ slippage_simulate v r ∧ slippage_simulate v r ≤ v) ∧
    (st.book.orders o.id = some of →
      slippage_simulate (if of.side = .buy then tp.ask_volume else tp.bid_volume) r ≤ 0 →
      process_single_order cfg st o tp r ts = .ok st) := by
  constructor
  · intro hv
    unfold slippage_simulate
    obtain ⟨h0, h1⟩ := slippage_factor_mem r
    exact ⟨mul_nonneg hv h0, mul_le_of_le_one_right hv h1⟩
  · intro hof havail
    by_cases hguard : (¬ of.status.isOpen ∨ of.amount - epsFill ≤ of.actual_filled)
    · simp only [process_single_order, hof]
      rw [if_pos hguard]
    · have hfill : ¬ (of.amount - epsFill ≤ of.actual_filled) := fun h => hguard (Or.inr h)
      have hneed : (0 : ℚ) < of.amount - of.actual_filled := by
        have heps : (0 : ℚ) < epsFill := by norm_num [epsFill]
        push_neg at hfill
        linarith
      have hlt : slippage_simulate
          (if of.side = .buy then tp.ask_volume else tp.bid_volume) r <
          of.amount - of.actual_filled := lt_of_le_of_lt havail hneed
      simp only [process_single_order, hof]
      rw [if_neg hguard, if_pos hlt, if_pos havail]

/-- Concrete fixture: engine configuration with 0.1% commission. -/
def wCfg : Config := ⟨1 / 1000, "USDT"⟩

/-- Concrete fixture: the BTC/USDT symbol. -/
def wSym : SymbolPair := ⟨"BTC", "USDT"⟩

/-- Concrete fixture: a BTC/USDT ticker at price 10 with volume 5. -/
def wTp : TradingPair := ⟨wSym, 10, 0, 10, 10, 5, 5⟩

/-- Concrete fixture: a market knowing only BTC/USDT. -/
def wMkt : MarketStore := [wTp]

/-- Concrete fixture: a portfolio holding 1000 USDT free. -/
def wPortfolio : PortfolioMap :=
  fun a => if a = "USDT" then (1000, 0) else (0, 0)

/-- Concrete fixture: engine state with an empty book. -/
def wState : EngineState :=
  ⟨wPortfolio, OrderBook.empty, wMkt, zeroStats, fun _ => {}, fun _ => {}⟩

/-- Concrete fixture: an open buy limit order, 2 BTC at 10 USDT. -/
def wOrder : Order :=
  { id := "o1", symbol := wSym, side := .buy, type := .limit, amount := 2,
    limit_price := some 10, notion_currency := "USDT",
    fee_currency := "USDT", fee_rate := 1 / 1000, status := .new,
    initial_booked_notion := 20, reserved_notion_left := 20,
    initial_booked_fee := 1 / 50, reserved_fee_left := 1 / 50,
    ts_create := 1, ts_update := 1 }

/-- Concrete fixture: engine state storing `wOrder` with 1000 USDT. -/
def wStateO : EngineState :=
  ⟨wPortfolio, OrderBook.empty.add wOrder, wMkt, zeroStats,
    fun _ => {}, fun _ => {}⟩

/-- Witness for C7 at volume `5`, draw `r = -1` (clamped to 0), on the
stored order `wOrder`. -/
theorem slippage_bounded_and_nonpositive_avail_aborts_witness :
    (0 ≤ slippage_simulate 5 (-1) ∧ slippage_simulate 5 (-1) ≤ 5) ∧
    process_single_order wCfg wStateO wOrder wTp (-1) 2 = .ok wStateO := by
  have h := slippage_bounded_and_nonpositive_avail_aborts
    wCfg wStateO wOrder wOrder wTp (-1) 2 5
  exact ⟨h.1 (by norm_num), h.2 (by rfl) (by norm_num [slippage_simulate, wOrder, wTp])⟩

/-- After `set_last_price`, the stored ticker for the pair's symbol is
exactly the written snapshot (replacement branch). -/
theorem find_map_replace (tp : TradingPair) :
    ∀ m : List TradingPair, m.any (fun x => x.symbol = tp.symbol) →
      (m.map (fun x => if x.symbol = tp.symbol then tp else x)).find?
        (fun x => x.symbol = tp.symbol) = some tp := by
  intro m
  induction m with
  | nil => intro h; simp at h
  | cons x xs ih =>
    intro h
    simp only [List.map_cons]
    by_cases hx : x.symbol = tp.symbol
    · simp [List.find?, hx]
    · rw [if_neg hx, List.find?_cons_of_neg]
      · apply ih
        simpa [hx] using h
      · simp [hx]

/-- After `set_last_price`, the stored ticker for the pair's symbol is
exactly the written snapshot (append branch). -/
theorem find_append_self (tp : TradingPair) :
    ∀ m : List TradingPair,
      (m ++ [tp]).find? (fun x => x.symbol = tp.symbol) =
        ((m.find? (fun x => x.symbol = tp.symbol)).getD tp : TradingPair) := by
  intro m
  induction m with
  | nil => simp [List.find?]
  | cons x xs ih =>
    by_cases hx : x.symbol = tp.symbol
    · simp [List.find?, hx]
    · simpa [List.find?, hx] using ih

/-- `fetch_ticker` right after `setPair` returns the written pair. -/
theorem fetch_setPair (m : MarketStore) (tp : TradingPair) :
    (m.setPair tp).fetch_ticker tp.symbol = some tp := by
  unfold MarketStore.setPair MarketStore.fetch_ticker
  split
  · rename_i hany
    exact find_map_replace tp m hany
  · rename_i hany
    rw [find_append_self tp m]
    have hnone : m.find? (fun x => x.symbol = tp.symbol) = none := by
      rw [List.find?_eq_none]
      intro x hx
      intro hdec
      exact hany (List.any_eq_true.mpr ⟨x, hx, hdec⟩)
    rw [hnone]
    rfl

/-- A volume that `resolveVolume` accepts is never zero: an explicit
nonzero volume passes through, and both `None` and `0` fall back to
`10¹²/price`, which is nonzero whenever the division succeeds. -/
theorem resolveVolume_ok_ne_zero (v : Option ℚ) (p q : ℚ)
    (h : resolveVolume v p = .ok q) : q ≠ 0 := by
  unfold resolveVolume defaultVolume at h
  rcases v with _ | x
  · by_cases hp : p = 0
    · rw [if_pos hp] at h
      simp at h
    · rw [if_neg hp] at h
      cases h
      exact div_ne_zero (by norm_num) hp
  · dsimp only at h
    by_cases hx : x = 0
    · rw [if_pos hx] at h
      by_cases hp : p = 0
      · rw [if_pos hp] at h
        simp at h
      · rw [if_neg hp] at h
        cases h
        exact div_ne_zero (by norm_num) hp
    · rw [if_neg hx] at h
      cases h
      exact hx

/-- Anatomy of a successful `set_ticker` call: both volumes resolved,
and the stored ticker is the full written snapshot. -/
theorem set_ticker_ok_fetch (st : EngineState) (symbol : SymbolPair)
    (price : ℚ) (bv av : Option ℚ) (ts : ℕ) (st' : EngineState)
    (t : TradingPair)
    (h : set_ticker st symbol price bv av ts = .ok (st', t)) :
    ∃ bvv avv, resolveVolume bv price = .ok bvv ∧
      resolveVolume av price = .ok avv ∧
      st'.market.fetch_ticker symbol =
        some ⟨symbol, price, ts, price, price, bvv, avv⟩ := by
  unfold set_ticker at h
  rcases hbv : resolveVolume bv price with e | bvv
  · rw [hbv] at h
    simp at h
  · rw [hbv] at h
    rcases hav : resolveVolume av price with e | avv
    · rw [hav] at h
      simp at h
    · rw [hav] at h
      dsimp only at h
      by_cases htick : st.market.hasTicker symbol = true
      · rw [if_neg (not_not_intro htick)] at h
        have hfetch := fetch_setPair st.market
          ⟨symbol, price, ts, price, price, bvv, avv⟩
        rcases hf : (st.market.setPair
            ⟨symbol, price, ts, price, price, bvv, avv⟩).fetch_ticker symbol with _ | t0
        · rw [hf] at hfetch
          simp at hfetch
        · rw [hf] at h
          cases h
          refine ⟨bvv, avv, rfl, rfl, ?_⟩
          rw [hf] at hfetch ⊢
          exact hfetch
      · rw [if_pos htick] at h
        simp at h

/-- C9: `set_ticker` treats a `bid_volume` or `ask_volume` argument of
0 exactly like an omitted argument — in both cases the stored volume is
the default `10¹²/price` — and no successful call records zero
liquidity for the symbol. -/
theorem set_ticker_zero_volume_like_omitted
    (st : EngineState) (symbol : SymbolPair) (price : ℚ)
    (bv av : Option ℚ) (ts : ℕ) :
    set_ticker st symbol price (some 0) av ts =
      set_ticker st symbol price none av ts ∧
    set_ticker st symbol price bv (some 0) ts =
      set_ticker st symbol price bv none ts ∧
    (price ≠ 0 → ∀ st' t, set_ticker st symbol price (some 0) av ts = .ok (st', t) →
      ∃ t0, st'.market.fetch_ticker symbol = some t0 ∧
        t0.bid_volume = 10 ^ 12 / price) ∧
    (∀ st' t, set_ticker st symbol price bv av ts = .ok (st', t) →
      ∃ t0, st'.market.fetch_ticker symbol = some t0 ∧
        t0.bid_volume ≠ 0 ∧ t0.ask_volume ≠ 0) := by
  have hres0 : resolveVolume (some 0) price = resolveVolume none price := by
    simp [resolveVolume]
  refine ⟨?_, ?_, ?_, ?_⟩
  · unfold set_ticker
    rw [hres0]
  · unfold set_ticker
    rw [hres0]
  · intro hp st' t h
    obtain ⟨bvv, avv, hbv, hav, hfetch⟩ := set_ticker_ok_fetch _ _ _ _ _ _ _ _ h
    refine ⟨_, hfetch, ?_⟩
    rw [hres0] at hbv
    unfold resolveVolume defaultVolume at hbv
    rw [if_neg hp] at hbv
    cases hbv
    rfl
  · intro st' t h
    obtain ⟨bvv, avv, hbv, hav, hfetch⟩ := set_ticker_ok_fetch _ _ _ _ _ _ _ _ h
    exact ⟨_, hfetch, resolveVolume_ok_ne_zero _ _ _ hbv,
      resolveVolume_ok_ne_zero _ _ _ hav⟩

/-- The concrete state produced by the C9 witness call. -/
def wTickState : EngineState :=
  { wState with market := wState.market.setPair ⟨wSym, 10, 5, 10, 10, 10 ^ 12 / 10, 7⟩ }

/-- Witness for C9 on the concrete market `wMkt` at price 10. -/
theorem set_ticker_zero_volume_like_omitted_witness :
    (∃ t0, wTickState.market.fetch_ticker wSym = some t0 ∧
      t0.bid_volume = 10 ^ 12 / 10) ∧
    (∃ t0, wTickState.market.fetch_ticker wSym = some t0 ∧
      t0.bid_volume ≠ 0 ∧ t0.ask_volume ≠ 0) := by
  have h := set_ticker_zero_volume_like_omitted wState wSym 10 (some 0) (some 7) 5
  have hcall : set_ticker wState wSym 10 (some 0) (some 7) 5 =
      .ok (wTickState, ⟨wSym, 10, 5, 10, 10, 10 ^ 12 / 10, 7⟩) := by rfl
  exact ⟨h.2.2.1 (by norm_num) _ _ hcall, h.2.2.2 _ _ hcall⟩

/-- C10: `deposit_asset` and `withdrawal_asset` raise the tradeability
validation error for every asset that is neither the cash asset nor the
base of a known ticker, for **every** amount — including non-positive
ones — so the tradeability check precedes the `amount > 0` and
sufficient-funds checks, and no state is touched. -/
theorem deposit_withdraw_reject_untradeable
    (cfg : Config) (st : EngineState) (asset : String) (amount : ℚ)
    (hne : asset ≠ cfg.cash_asset)
    (hnb : ¬ st.market.baseAssets.contains asset) :
    deposit_asset cfg st asset amount = .error (.notTradeable asset) ∧
    withdrawal_asset cfg st asset amount = .error (.notTradeable asset) := by
  unfold deposit_asset withdrawal_asset
  rw [if_pos ⟨hne, hnb⟩, if_pos ⟨hne, hnb⟩]
  exact ⟨rfl, rfl⟩

/-- Witness for C10: `"DOGE"` is unknown to `wMkt`; the amount `-5` is
also invalid, yet the error reported is the tradeability one. -/
theorem deposit_withdraw_reject_untradeable_witness :
    deposit_asset wCfg wState "DOGE" (-5) = .error (.notTradeable "DOGE") ∧
    withdrawal_asset wCfg wState "DOGE" (-5) = .error (.notTradeable "DOGE") :=
  deposit_withdraw_reject_untradeable wCfg wState "DOGE" (-5)
    (by decide) (by decide)

/-- The reference value recorded by the investment-account updates:
1:1 for the cash asset, else `amount · last_price(asset/cash)`. -/
def refValueOf (cfg : Config) (m : MarketStore) (asset : String)
    (amount : ℚ) : ℚ :=
  if asset = cfg.cash_asset then amount
  else amount * ((m.lastPrice ⟨asset, cfg.cash_asset⟩).getD 0)

/-- The record update shared by `_update_deposit_account` and
`_update_withdrawal_account`. -/
def bumpAccount (cfg : Config) (acc : InvestAccount) (v amount : ℚ) :
    InvestAccount :=
  { ref_symbol := some (acc.ref_symbol.getD cfg.cash_asset),
    asset_quantity := acc.asset_quantity + amount,
    ref_value := acc.ref_value + v }

/-- `_update_deposit_account` succeeds whenever the asset is cash or
priced, and bumps exactly the asset's deposit account. -/
theorem update_deposit_account_eq (cfg : Config) (st : EngineState)
    (asset : String) (amount : ℚ)
    (hv : asset = cfg.cash_asset ∨
      (st.market.lastPrice ⟨asset, cfg.cash_asset⟩).isSome) :
    update_deposit_account cfg st asset amount = .ok
      { st with deposits := fun a => if a = asset then bumpAccount cfg (st.deposits asset) (refValueOf cfg st.market asset amount) amount else st.deposits a } := by
  unfold update_deposit_account
  by_cases hc : asset = cfg.cash_asset
  · rw [if_pos hc]
    simp [bumpAccount, refValueOf, hc]
  · rcases hp : st.market.lastPrice ⟨asset, cfg.cash_asset⟩ with _ | pr
    · rcases hv with hv | hv
      · exact absurd hv hc
      · rw [hp] at hv
        simp at hv
    · rw [if_neg hc]
      simp [bumpAccount, refValueOf, hc, hp]

/-- `_update_withdrawal_account` mirror of the previous lemma. -/
theorem update_withdrawal_account_eq (cfg : Config) (st : EngineState)
    (asset : String) (amount : ℚ)
    (hv : asset = cfg.cash_asset ∨
      (st.market.lastPrice ⟨asset, cfg.cash_asset⟩).isSome) :
    update_withdrawal_account cfg st asset amount = .ok
      { st with withdrawals := fun a => if a = asset then bumpAccount cfg (st.withdrawals asset) (refValueOf cfg st.market asset amount) amount else st.withdrawals a } := by
  unfold update_withdrawal_account
  by_cases hc : asset = cfg.cash_asset
  · rw [if_pos hc]
    simp [bumpAccount, refValueOf, hc]
  · rcases hp : st.market.lastPrice ⟨asset, cfg.cash_asset⟩ with _ | pr
    · rcases hv with hv | hv
      · exact absurd hv hc
      · rw [hp] at hv
        simp at hv
    · rw [if_neg hc]
      simp [bumpAccount, refValueOf, hc, hp]

/-- `Portfolio.get` right after `Portfolio.set` of the same asset. -/
theorem pGet_set_same (p : PortfolioMap) (b : AssetBalance) :
    (p.set b).get b.asset = b := by
  unfold PortfolioMap.get PortfolioMap.set
  rw [if_pos rfl]

/-- `Portfolio.set` leaves other assets' rows untouched. -/
theorem pSet_other (p : PortfolioMap) (b : AssetBalance) (a : String)
    (h : a ≠ b.asset) : (p.set b) a = p a := by
  unfold PortfolioMap.set
  rw [if_neg h]

/-- Shape of a successful `deposit_asset` call. -/
theorem deposit_asset_eq (cfg : Config) (st : EngineState)
    (asset : String) (amount : ℚ)
    (hcond : ¬ (asset ≠ cfg.cash_asset ∧ ¬ st.market.baseAssets.contains asset))
    (hamt : 0 < amount)
    (hv : asset = cfg.cash_asset ∨
      (st.market.lastPrice ⟨asset, cfg.cash_asset⟩).isSome) :
    deposit_asset cfg st asset amount = .ok
      ({ st with
          portfolio := st.portfolio.set { st.portfolio.get asset with free := (st.portfolio.get asset).free + amount }
          deposits := fun a => if a = asset then bumpAccount cfg (st.deposits asset) (refValueOf cfg st.market asset amount) amount else st.deposits a },
        { st.portfolio.get asset with free := (st.portfolio.get asset).free + amount }) := by
  simp only [deposit_asset]
  rw [if_neg hcond, if_neg (not_le.mpr hamt)]
  have h2 := update_deposit_account_eq cfg
    { st with portfolio := st.portfolio.set { st.portfolio.get asset with free := (st.portfolio.get asset).free + amount } }
    asset amount (by exact hv)
  rw [h2]

/-- Shape of a successful `withdrawal_asset` call. -/
theorem withdrawal_asset_eq (cfg : Config) (st : EngineState)
    (asset : String) (amount : ℚ)
    (hcond : ¬ (asset ≠ cfg.cash_asset ∧ ¬ st.market.baseAssets.contains asset))
    (hamt : 0 < amount)
    (hsuff : ¬ (st.portfolio.get asset).free < amount)
    (hv : asset = cfg.cash_asset ∨
      (st.market.lastPrice ⟨asset, cfg.cash_asset⟩).isSome) :
    withdrawal_asset cfg st asset amount = .ok
      ({ st with
          portfolio := st.portfolio.set { st.portfolio.get asset with free := (st.portfolio.get asset).free - amount }
          withdrawals := fun a => if a = asset then bumpAccount cfg (st.withdrawals asset) (refValueOf cfg st.market asset amount) amount else st.withdrawals a },
        { st.portfolio.get asset with free := (st.portfolio.get asset).free - amount }) := by
  simp only [withdrawal_asset]
  rw [if_neg hcond, if_neg (not_le.mpr hamt), if_neg hsuff]
  have h2 := update_withdrawal_account_eq cfg
    { st with portfolio := st.portfolio.set { st.portfolio.get asset with free := (st.portfolio.get asset).free - amount } }
    asset amount (by exact hv)
  rw [h2]

/-- C8: for a known (tradeable and priced) asset and every `x > 0`, the
pair `deposit_asset(a, x)` then `withdrawal_asset(a, x)` — the market
is untouched in between, so the price is unchanged — restores every
portfolio balance, and the `ref_value` increment recorded in the
deposit account equals the one recorded in the withdrawal account. -/
theorem deposit_withdraw_round_trip
    (cfg : Config) (st : EngineState) (asset : String) (x : ℚ)
    (hx : 0 < x)
    (htrade : asset = cfg.cash_asset ∨ st.market.baseAssets.contains asset)
    (hprice : asset = cfg.cash_asset ∨
      (st.market.lastPrice ⟨asset, cfg.cash_asset⟩).isSome)
    (hfree : 0 ≤ (st.portfolio.get asset).free) :
    ∃ st1 b1 st2 b2,
      deposit_asset cfg st asset x = .ok (st1, b1) ∧
      withdrawal_asset cfg st1 asset x = .ok (st2, b2) ∧
      (∀ a, st2.portfolio a = st.portfolio a) ∧
      (st2.deposits asset).ref_value - (st.deposits asset).ref_value =
        (st2.withdrawals asset).ref_value - (st.withdrawals asset).ref_value := by
  have hcond : ¬ (asset ≠ cfg.cash_asset ∧
      ¬ st.market.baseAssets.contains asset) := by
    rcases htrade with h | h
    · exact fun hc => hc.1 h
    · exact fun hc => hc.2 h
  have hdep := deposit_asset_eq cfg st asset x hcond hx hprice
  set b1 : AssetBalance :=
    { st.portfolio.get asset with free := (st.portfolio.get asset).free + x } with hb1
  set st1 : EngineState :=
    { st with
      portfolio := st.portfolio.set b1
      deposits := fun a => if a = asset then bumpAccount cfg (st.deposits asset) (refValueOf cfg st.market asset x) x else st.deposits a } with hst1
  have hget1 : st1.portfolio.get asset = b1 := pGet_set_same st.portfolio b1
  have hsuff : ¬ (st1.portfolio.get asset).free < x := by
    rw [hget1, hb1]
    push_neg
    dsimp only
    linarith
  have hwd := withdrawal_asset_eq cfg st1 asset x (by exact hcond) hx hsuff
    (by exact hprice)
  rw [hget1] at hwd
  refine ⟨st1, b1, _, _, hdep, hwd, ?_, ?_⟩
  · intro a
    by_cases ha : a = asset
    · subst ha
      simp [hst1, hb1, PortfolioMap.set, PortfolioMap.get]
    · simp [hst1, hb1, PortfolioMap.set, PortfolioMap.get, ha]
  · simp [hst1, bumpAccount]

/-- Witness for C8: deposit then withdraw 7 BTC on `wState`. -/
theorem deposit_withdraw_round_trip_witness :
    ∃ st1 b1 st2 b2,
      deposit_asset wCfg wState "BTC" 7 = .ok (st1, b1) ∧
      withdrawal_asset wCfg st1 "BTC" 7 = .ok (st2, b2) ∧
      (∀ a, st2.portfolio a = wState.portfolio a) ∧
      (st2.deposits "BTC").ref_value - (wState.deposits "BTC").ref_value =
        (st2.withdrawals "BTC").ref_value - (wState.withdrawals "BTC").ref_value :=
  deposit_withdraw_round_trip wCfg wState "BTC" 7 (by norm_num)
    (Or.inr (by decide)) (Or.inr (by rfl)) (by decide)

/-- `Portfolio.get` after `Portfolio.set` of a different asset. -/
theorem pGet_set_ne (p : PortfolioMap) (b : AssetBalance) (a : String)
    (h : a ≠ b.asset) : (p.set b).get a = p.get a := by
  unfold PortfolioMap.get
  rw [pSet_other p b a h]

/-- `pGet_set_ne` variant keyed on a provable asset-name equality. -/
theorem pGet_set_eq (p : PortfolioMap) (b : AssetBalance) (a : String)
    (h : a = b.asset) : (p.set b).get a = b := by
  subst h
  exact pGet_set_same p b

/-- C5: for every successful `create_order`, the reservation price `px`
is `last_price` for market orders, `limit_price` for limit buys and
`max(limit_price, last_price)` for limit sells; the bookings are
`notion = amount·px` (0 for sells) and `fee = amount·px·commission`; a
buy reserves `notion + fee` in quote, a sell reserves `amount` in base
plus `fee` in quote. -/
theorem create_order_reservation_price_and_bookings
    (cfg : Config) (st : EngineState) (symbol : SymbolPair)
    (side : OrderSide) (type_ : OrderType) (amount : ℚ)
    (limit_price : Option ℚ) (lp : ℚ) (ts : ℕ) (oid : String) (last px : ℚ)
    (hlast : st.market.lastPrice symbol = some last)
    (hamt : 0 < amount)
    (hlp : type_ = .limit → limit_price = some lp ∧ 0 ≤ lp)
    (hpx : px = (match type_ with
      | .market => last
      | .limit => if side = .buy then lp else max lp last))
    (hbq : symbol.base ≠ symbol.quote)
    (hfb : side = .buy →
      amount * px + amount * px * cfg.commission ≤ (st.portfolio.get symbol.quote).free)
    (hfs : side = .sell →
      amount ≤ (st.portfolio.get symbol.base).free ∧
      amount * px * cfg.commission ≤ (st.portfolio.get symbol.quote).free) :
    ∃ st' o, create_order cfg st symbol side type_ amount limit_price ts oid = .ok (st', o) ∧
      o.status = .new ∧
      o.initial_booked_notion = (if side = .buy then amount * px else 0) ∧
      o.reserved_notion_left = (if side = .buy then amount * px else 0) ∧
      o.initial_booked_fee = amount * px * cfg.commission ∧
      o.reserved_fee_left = amount * px * cfg.commission ∧
      (side = .buy →
        (st'.portfolio.get symbol.quote).free =
          (st.portfolio.get symbol.quote).free - (amount * px + amount * px * cfg.commission) ∧
        (st'.portfolio.get symbol.quote).used =
          (st.portfolio.get symbol.quote).used + (amount * px + amount * px * cfg.commission) ∧
        ∀ a, a ≠ symbol.quote → st'.portfolio a = st.portfolio a) ∧
      (side = .sell →
        (st'.portfolio.get symbol.base).free = (st.portfolio.get symbol.base).free - amount ∧
        (st'.portfolio.get symbol.base).used = (st.portfolio.get symbol.base).used + amount ∧
        (st'.portfolio.get symbol.quote).free =
          (st.portfolio.get symbol.quote).free - amount * px * cfg.commission ∧
        (st'.portfolio.get symbol.quote).used =
          (st.portfolio.get symbol.quote).used + amount * px * cfg.commission ∧
        ∀ a, a ≠ symbol.base → a ≠ symbol.quote → st'.portfolio a = st.portfolio a) := by
  have hht : st.market.hasTicker symbol = true := by
    unfold MarketStore.hasTicker
    unfold MarketStore.lastPrice at hlast
    rcases hf : st.market.fetch_ticker symbol with _ | t
    · rw [hf] at hlast
      simp at hlast
    · simp [hf]
  cases type_ with
  | market =>
    have hpx2 : px = last := hpx
    subst hpx2
    cases side with
    | buy =>
      have hf := hfb rfl
      simp only [create_order, hlast]
      rw [if_neg (by simp [hht]), if_neg (not_le.mpr hamt), if_neg (by simp)]
      rw [if_pos (show (st.portfolio.get symbol.quote).free ≥
        amount * px + amount * px * cfg.commission from hf)]
      dsimp only
      simp only [eq_self_iff_true, if_true, OrderState.isOpen]
      simp only [reserveP]
      rw [if_neg (not_lt.mpr hf)]
      dsimp only
      refine ⟨_, _, rfl, rfl, by simp, by simp, by simp, by simp, ?_, ?_⟩
      · intro _
        refine ⟨?_, ?_, ?_⟩
        · exact congrArg AssetBalance.free (pGet_set_same st.portfolio _)
        · exact congrArg AssetBalance.used (pGet_set_same st.portfolio _)
        · intro a ha
          exact pSet_other _ _ _ ha
      · intro h
        exact absurd h (by simp)
    | sell =>
      obtain ⟨hf1, hf2⟩ := hfs rfl
      simp only [create_order, hlast]
      rw [if_neg (by simp [hht]), if_neg (not_le.mpr hamt), if_neg (by simp)]
      rw [if_pos (show (st.portfolio.get symbol.quote).free ≥
        amount * px * cfg.commission from hf2)]
      rw [if_pos (show (st.portfolio.get symbol.base).free ≥ amount from hf1)]
      dsimp only
      simp only [decide_eq_true_eq]
      simp only [if_pos (show (st.portfolio.get symbol.base).free ≥ amount from hf1)]
      simp only [show (OrderSide.sell = OrderSide.buy) = False from by simp, if_false]
      simp only [reserveP]
      rw [if_neg (not_lt.mpr hf1)]
      dsimp only
      rw [if_neg (show ¬ (((st.portfolio.set
        ⟨(st.portfolio.get symbol.base).asset,
          (st.portfolio.get symbol.base).free - amount,
          (st.portfolio.get symbol.base).used + amount⟩).get symbol.quote).free <
          amount * px * cfg.commission) by
        rw [pGet_set_ne _ _ _ (Ne.symm hbq)]
        exact not_lt.mpr hf2)]
      dsimp only
      simp only [eq_self_iff_true, if_true, OrderState.isOpen]
      refine ⟨_, _, rfl, rfl, by simp, by simp, by simp, by simp, ?_, ?_⟩
      · intro h
        exact absurd h (by simp)
      · intro _
        refine ⟨?_, ?_, ?_, ?_, ?_⟩
        · simp [PortfolioMap.get, PortfolioMap.set, hbq, Ne.symm hbq]
        · simp [PortfolioMap.get, PortfolioMap.set, hbq, Ne.symm hbq]
        · simp [PortfolioMap.get, PortfolioMap.set, hbq, Ne.symm hbq]
        · simp [PortfolioMap.get, PortfolioMap.set, hbq, Ne.symm hbq]
        · intro a hab haq
          simp [PortfolioMap.get, PortfolioMap.set, hab, haq]
  | limit =>
    obtain ⟨hlpe, hlp0⟩ := hlp rfl
    subst hlpe
    cases side with
    | buy =>
      have hpx2 : px = lp := hpx
      subst hpx2
      have hf := hfb rfl
      simp only [create_order, hlast]
      rw [if_neg (by simp [hht]), if_neg (not_le.mpr hamt)]
      simp only [eq_self_iff_true, true_and, if_true]
      rw [if_neg (show ¬ (badLimitArg (some px) = true) by
        simp only [badLimitArg, decide_eq_true_eq]
        exact fun hbad => absurd hbad (not_lt.mpr hlp0))]
      rw [if_pos (show (st.portfolio.get symbol.quote).free ≥
        amount * px + amount * px * cfg.commission from hf)]
      dsimp only
      simp only [eq_self_iff_true, if_true, OrderState.isOpen]
      simp only [reserveP]
      rw [if_neg (not_lt.mpr hf)]
      dsimp only
      refine ⟨_, _, rfl, rfl, by simp, by simp, by simp, by simp, ?_, ?_⟩
      · intro _
        refine ⟨?_, ?_, ?_⟩
        · exact congrArg AssetBalance.free (pGet_set_same st.portfolio _)
        · exact congrArg AssetBalance.used (pGet_set_same st.portfolio _)
        · intro a ha
          exact pSet_other _ _ _ ha
      · intro h
        exact absurd h (by simp)
    | sell =>
      have hpx2 : px = max lp last := hpx
      subst hpx2
      obtain ⟨hf1, hf2⟩ := hfs rfl
      simp only [create_order, hlast]
      rw [if_neg (by simp [hht]), if_neg (not_le.mpr hamt)]
      simp only [eq_self_iff_true, true_and, if_true]
      rw [if_neg (show ¬ (badLimitArg (some lp) = true) by
        simp only [badLimitArg, decide_eq_true_eq]
        exact fun hbad => absurd hbad (not_lt.mpr hlp0))]
      simp only [show (OrderSide.sell = OrderSide.buy) = False from by simp, if_false]
      rw [if_pos (show (st.portfolio.get symbol.quote).free ≥
        amount * max lp last * cfg.commission from hf2)]
      rw [if_pos (show (st.portfolio.get symbol.base).free ≥ amount from hf1)]
      dsimp only
      simp only [decide_eq_true_eq]
      simp only [if_pos (show (st.portfolio.get symbol.base).free ≥ amount from hf1)]
      simp only [reserveP]
      rw [if_neg (not_lt.mpr hf1)]
      dsimp only
      rw [if_neg (show ¬ (((st.portfolio.set
        ⟨(st.portfolio.get symbol.base).asset,
          (st.portfolio.get symbol.base).free - amount,
          (st.portfolio.get symbol.base).used + amount⟩).get symbol.quote).free <
          amount * max lp last * cfg.commission) by
        rw [pGet_set_ne _ _ _ (Ne.symm hbq)]
        exact not_lt.mpr hf2)]
      dsimp only
      simp only [eq_self_iff_true, if_true, OrderState.isOpen]
      refine ⟨_, _, rfl, rfl, by simp, by simp, by simp, by simp, ?_, ?_⟩
      · intro h
        exact absurd h (by simp)
      · intro _
        refine ⟨?_, ?_, ?_, ?_, ?_⟩
        · simp [PortfolioMap.get, PortfolioMap.set, hbq, Ne.symm hbq]
        · simp [PortfolioMap.get, PortfolioMap.set, hbq, Ne.symm hbq]
        · simp [PortfolioMap.get, PortfolioMap.set, hbq, Ne.symm hbq]
        · simp [PortfolioMap.get, PortfolioMap.set, hbq, Ne.symm hbq]
        · intro a hab haq
          simp [PortfolioMap.get, PortfolioMap.set, hab, haq]

/-- Concrete fixture: portfolio with 1000 USDT and 5 BTC free. -/
def wPortfolio2 : PortfolioMap :=
  fun a => if a = "USDT" then (1000, 0) else if a = "BTC" then (5, 0) else (0, 0)

/-- Concrete fixture: engine state over `wPortfolio2`. -/
def wState2 : EngineState :=
  ⟨wPortfolio2, OrderBook.empty, wMkt, zeroStats, fun _ => {}, fun _ => {}⟩

/-- Witness for C5: a limit sell of 2 BTC at limit 20 with last price 10,
so `px = max 20 10`. -/
theorem create_order_reservation_price_and_bookings_witness :
    ∃ st' o, create_order wCfg wState2 wSym .sell .limit 2 (some 20) 9 "o1" = .ok (st', o) ∧
      o.status = .new ∧
      o.initial_booked_notion = (if OrderSide.sell = .buy then 2 * max (20 : ℚ) 10 else 0) ∧
      o.reserved_notion_left = (if OrderSide.sell = .buy then 2 * max (20 : ℚ) 10 else 0) ∧
      o.initial_booked_fee = 2 * max (20 : ℚ) 10 * wCfg.commission ∧
      o.reserved_fee_left = 2 * max (20 : ℚ) 10 * wCfg.commission ∧
      (OrderSide.sell = OrderSide.buy →
        (st'.portfolio.get wSym.quote).free =
          (wState2.portfolio.get wSym.quote).free - (2 * max (20 : ℚ) 10 + 2 * max (20 : ℚ) 10 * wCfg.commission) ∧
        (st'.portfolio.get wSym.quote).used =
          (wState2.portfolio.get wSym.quote).used + (2 * max (20 : ℚ) 10 + 2 * max (20 : ℚ) 10 * wCfg.commission) ∧
        ∀ a, a ≠ wSym.quote → st'.portfolio a = wState2.portfolio a) ∧
      (OrderSide.sell = OrderSide.sell →
        (st'.portfolio.get wSym.base).free = (wState2.portfolio.get wSym.base).free - 2 ∧
        (st'.portfolio.get wSym.base).used = (wState2.portfolio.get wSym.base).used + 2 ∧
        (st'.portfolio.get wSym.quote).free =
          (wState2.portfolio.get wSym.quote).free - 2 * max (20 : ℚ) 10 * wCfg.commission ∧
        (st'.portfolio.get wSym.quote).used =
          (wState2.portfolio.get wSym.quote).used + 2 * max (20 : ℚ) 10 * wCfg.commission ∧
        ∀ a, a ≠ wSym.base → a ≠ wSym.quote → st'.portfolio a = wState2.portfolio a) :=
  create_order_reservation_price_and_bookings wCfg wState2 wSym .sell .limit 2
    (some 20) 20 9 "o1" 10 (max 20 10)
    rfl (by norm_num) (fun _ => ⟨rfl, by norm_num⟩) rfl (by decide)
    (fun h => absurd h (by decide))
    (fun _ => ⟨by show (2 : ℚ) ≤ 5; norm_num,
      by show 2 * max (20 : ℚ) 10 * wCfg.commission ≤ 1000; norm_num [wCfg]⟩)

/-- Concrete fixture: 5 BTC free but only 0.01 USDT free — enough base
to sell, not enough quote to cover the 0.02 USDT fee. -/
def wPortfolioFee : PortfolioMap :=
  fun a => if a = "USDT" then (1 / 100, 0) else if a = "BTC" then (5, 0) else (0, 0)

/-- Concrete fixture: engine state over `wPortfolioFee`. -/
def wStateFee : EngineState :=
  ⟨wPortfolioFee, OrderBook.empty, wMkt, zeroStats, fun _ => {}, fun _ => {}⟩

/-- C1 (code bug witness): a sell limit order for 2 BTC at 10 with
`free(base) = 5 ≥ 2` but `free(quote) = 0.01 < fee = 0.02`.  The claim
(and spec §4.7) require the call to persist a `rejected` order and
leave balances unchanged; instead the sell-side funds check of
`create_order` (`engine_actors.py` line 536, `enough_funds =
enough_funds and True`) never clears the flag on a fee shortage, so the
call reaches `_reserve(quote, fee)`, which raises — after having
already reserved the base amount. -/
theorem create_order_sell_fee_shortage_raises :
    create_order wCfg wStateFee wSym .sell .limit 2 (some 10) 9 "o1" =
      .error (.insufficientToReserve "USDT") := by
  simp only [create_order]
  rw [show wStateFee.market.lastPrice wSym = some 10 from rfl]
  rw [if_neg (not_not_intro (show wStateFee.market.hasTicker wSym = true from rfl))]
  rw [if_neg (show ¬ ((2 : ℚ) ≤ 0) by norm_num)]
  simp only [eq_self_iff_true, true_and, if_true]
  rw [if_neg (show ¬ (badLimitArg (some 10) = true) by
    simp only [badLimitArg, decide_eq_true_eq]
    norm_num)]
  simp only [show (OrderSide.sell = OrderSide.buy) = False from by simp, if_false]
  rw [if_neg (show ¬ ((wStateFee.portfolio.get wSym.quote).free ≥
      2 * max 10 10 * wCfg.commission) by
    show ¬ ((1 / 100 : ℚ) ≥ 2 * max 10 10 * wCfg.commission)
    norm_num [wCfg])]
  rw [if_pos (show (wStateFee.portfolio.get wSym.base).free ≥ 2 by
    show (5 : ℚ) ≥ 2
    norm_num)]
  dsimp only
  simp only [decide_eq_true_eq]
  simp only [if_pos (show (wStateFee.portfolio.get wSym.base).free ≥ 2 by
    show (5 : ℚ) ≥ 2
    norm_num)]
  simp only [reserveP]
  rw [if_neg (show ¬ ((wStateFee.portfolio.get wSym.base).free < 2) by
    show ¬ ((5 : ℚ) < 2)
    norm_num)]
  dsimp only
  rw [if_pos (show (((wStateFee.portfolio.set
      ⟨(wStateFee.portfolio.get wSym.base).asset,
        (wStateFee.portfolio.get wSym.base).free - 2,
        (wStateFee.portfolio.get wSym.base).used + 2⟩).get wSym.quote).free <
      2 * max 10 10 * wCfg.commission) by
    show (1 / 100 : ℚ) < 2 * max 10 10 * wCfg.commission
    norm_num [wCfg])]
  rfl

/-- The hypotheses under which `_release(asset, qty)` is exact: the
reservation to undo is fully backed by `used`, and the released row is
not in the dust regime (or is exactly empty). -/
def exactRelease (b : AssetBalance) (qty : ℚ) : Prop :=
  qty ≤ b.used ∧
  (b.used - qty = 0 ∨ b.free + qty = 0 ∨
    ¬ ((b.used - qty) / (b.free + qty) < dustEps))

/-- Under `exactRelease`, `releaseBal` moves exactly `qty`. -/
theorem releaseBal_exact (b : AssetBalance) (qty : ℚ)
    (h : exactRelease b qty) :
    releaseBal b qty = (qty, ⟨b.asset, b.free + qty, b.used - qty⟩) := by
  obtain ⟨h1, h2⟩ := h
  unfold releaseBal
  rw [if_neg (not_lt.mpr h1)]
  dsimp only
  split
  · rename_i hc
    rcases h2 with h2 | h2 | h2
    · rw [h2]
    · exact absurd h2 hc.1
    · exact absurd hc.2 h2
  · rfl

/-- Under `exactRelease`, `_release` at the portfolio level rewrites the
asset's row exactly. -/
theorem releaseP_exact (p : PortfolioMap) (a : String) (qty : ℚ)
    (h : exactRelease (p.get a) qty) :
    releaseP p a qty =
      (qty, p.set ⟨a, (p.get a).free + qty, (p.get a).used - qty⟩) := by
  unfold releaseP
  rw [releaseBal_exact _ _ h]
  rfl

/-- C4: `cancel_order` raises exactly on non-open stored orders; on an
open order it releases `residual_quote` (plus `residual_base` for
sells) from `used` back to `free`, sets the status to `canceled` iff
nothing was filled and `partially_canceled` otherwise, squashes the
residual bookings to 0, sets `ts_finish`, and returns the canceled
order with the freed base and quote amounts. -/
theorem cancel_order_spec
    (st : EngineState) (oid : String) (o : Order) (ts : ℕ)
    (hstored : st.book.orders oid = some o)
    (hid : o.id = oid)
    (hfill : o.actual_filled ≤ o.amount)
    (hbq : o.symbol.base ≠ o.symbol.quote)
    (hqex : exactRelease (st.portfolio.get o.symbol.quote) o.residual_quote)
    (hbex : o.side = .sell →
      exactRelease (st.portfolio.get o.symbol.base) o.residual_base) :
    (¬ o.status.isOpen → cancel_order st oid ts = .error .onlyOpenCanBeCanceled) ∧
    (o.status.isOpen → ∃ st' o' rb rq,
      cancel_order st oid ts = .ok (st', o', rb, rq) ∧
      o'.status = (if o.actual_filled = 0 then OrderState.canceled
        else OrderState.partially_canceled) ∧
      o'.reserved_notion_left = 0 ∧
      o'.reserved_fee_left = 0 ∧
      o'.ts_finish = some ts ∧
      rb = (if o.side = .sell then o.residual_base else 0) ∧
      rq = o.residual_quote ∧
      st'.book.orders oid = some o' ∧
      (o.side = .buy →
        (st'.portfolio.get o.symbol.quote).free =
          (st.portfolio.get o.symbol.quote).free + o.residual_quote ∧
        (st'.portfolio.get o.symbol.quote).used =
          (st.portfolio.get o.symbol.quote).used - o.residual_quote ∧
        ∀ a, a ≠ o.symbol.quote → st'.portfolio a = st.portfolio a) ∧
      (o.side = .sell →
        (st'.portfolio.get o.symbol.base).free =
          (st.portfolio.get o.symbol.base).free + o.residual_base ∧
        (st'.portfolio.get o.symbol.base).used =
          (st.portfolio.get o.symbol.base).used - o.residual_base ∧
        (st'.portfolio.get o.symbol.quote).free =
          (st.portfolio.get o.symbol.quote).free + o.residual_quote ∧
        (st'.portfolio.get o.symbol.quote).used =
          (st.portfolio.get o.symbol.quote).used - o.residual_quote ∧
        ∀ a, a ≠ o.symbol.base → a ≠ o.symbol.quote →
          st'.portfolio a = st.portfolio a)) := by
  constructor
  · intro hno
    simp only [cancel_order, hstored]
    rw [if_pos (by simpa using hno)]
  · intro hop
    rcases hs : o.side with _ | _
    · simp only [cancel_order, hstored, hs, Order.add_history, Order.squash_booking]
      rw [if_neg (not_not_intro hop)]
      rw [releaseP_exact _ _ _ hqex]
      dsimp only
      rw [if_pos (show ((decide (-(1 / 10 ^ 9 : ℚ) ≤ (0 : ℚ))) &&
          (decide (-(1 / 10 ^ 9 : ℚ) ≤ (0 : ℚ))) : Bool) = true by
        simp only [Bool.and_eq_true, decide_eq_true_eq]
        constructor <;> norm_num)]
      refine ⟨_, _, _, _, rfl, rfl, rfl, rfl, rfl, by simp [hs], rfl, ?_, ?_, ?_⟩
      · simp [OrderBook.update, hid]
      · intro _
        refine ⟨?_, ?_, ?_⟩
        · simp [PortfolioMap.get, PortfolioMap.set]
        · simp [PortfolioMap.get, PortfolioMap.set]
        · intro a ha
          simp [PortfolioMap.get, PortfolioMap.set, ha]
      · intro h
        exact absurd h (by simp)
    · simp only [cancel_order, hstored, hs, Order.add_history, Order.squash_booking,
        Order.residual_base, Order.amount_remain]
      rw [if_neg (not_not_intro hop)]
      have hbex2 := hbex hs
      simp only [Order.residual_base, Order.amount_remain] at hbex2
      rw [releaseP_exact _ _ _ hbex2]
      dsimp only
      rw [releaseP_exact _ _ _ (show exactRelease
          (((st.portfolio.set ⟨o.symbol.base,
            (st.portfolio.get o.symbol.base).free + (o.amount - o.actual_filled),
            (st.portfolio.get o.symbol.base).used - (o.amount - o.actual_filled)⟩).get
            o.symbol.quote)) o.residual_quote by
        rw [pGet_set_ne _ _ _ (Ne.symm hbq)]
        exact hqex)]
      dsimp only
      rw [if_pos (show ((decide (-(1 / 10 ^ 9 : ℚ) ≤ o.amount - o.actual_filled)) &&
          (decide (-(1 / 10 ^ 9 : ℚ) ≤ (0 : ℚ))) : Bool) = true by
        simp only [Bool.and_eq_true, decide_eq_true_eq]
        constructor
        · have h9 : (0 : ℚ) < 1 / 10 ^ 9 := by norm_num
          linarith
        · norm_num)]
      refine ⟨_, _, _, _, rfl, rfl, rfl, rfl, rfl,
        by simp [hs, Order.residual_base, Order.amount_remain], rfl, ?_, ?_, ?_⟩
      · simp [OrderBook.update, hid]
      · intro h
        exact absurd h (by simp)
      · intro _
        refine ⟨?_, ?_, ?_, ?_, ?_⟩
        · simp [PortfolioMap.get, PortfolioMap.set, hbq, Ne.symm hbq]
        · simp [PortfolioMap.get, PortfolioMap.set, hbq, Ne.symm hbq]
        · simp [PortfolioMap.get, PortfolioMap.set, hbq, Ne.symm hbq]
        · simp [PortfolioMap.get, PortfolioMap.set, hbq, Ne.symm hbq]
        · intro a hab haq
          simp [PortfolioMap.get, PortfolioMap.set, hab, haq]

/-- Concrete fixture: an open buy limit order with integral bookings
(20 notion + 2 fee reserved). -/
def cOrder : Order :=
  { id := "o1", symbol := wSym, side := .buy, type := .limit, amount := 2,
    limit_price := some 10, notion_currency := "USDT",
    fee_currency := "USDT", fee_rate := 0, status := .new,
    initial_booked_notion := 20, reserved_notion_left := 20,
    initial_booked_fee := 2, reserved_fee_left := 2,
    ts_create := 1, ts_update := 1 }

/-- Concrete fixture: 100 USDT free and 22 USDT reserved. -/
def cPortfolio : PortfolioMap :=
  fun a => if a = "USDT" then (100, 22) else (0, 0)

/-- Concrete fixture: engine state storing `cOrder`. -/
def cState : EngineState :=
  ⟨cPortfolio, OrderBook.empty.add cOrder, wMkt, zeroStats,
    fun _ => {}, fun _ => {}⟩

/-- Witness for C4: the open order `cOrder` is canceled at `ts = 5`. -/
theorem cancel_order_spec_witness :
    (¬ cOrder.status.isOpen → cancel_order cState "o1" 5 = .error .onlyOpenCanBeCanceled) ∧
    (cOrder.status.isOpen → ∃ st' o' rb rq,
      cancel_order cState "o1" 5 = .ok (st', o', rb, rq) ∧
      o'.status = (if cOrder.actual_filled = 0 then OrderState.canceled
        else OrderState.partially_canceled) ∧
      o'.reserved_notion_left = 0 ∧
      o'.reserved_fee_left = 0 ∧
      o'.ts_finish = some 5 ∧
      rb = (if cOrder.side = .sell then cOrder.residual_base else 0) ∧
      rq = cOrder.residual_quote ∧
      st'.book.orders "o1" = some o' ∧
      (cOrder.side = .buy →
        (st'.portfolio.get cOrder.symbol.quote).free =
          (cState.portfolio.get cOrder.symbol.quote).free + cOrder.residual_quote ∧
        (st'.portfolio.get cOrder.symbol.quote).used =
          (cState.portfolio.get cOrder.symbol.quote).used - cOrder.residual_quote ∧
        ∀ a, a ≠ cOrder.symbol.quote → st'.portfolio a = cState.portfolio a) ∧
      (cOrder.side = .sell →
        (st'.portfolio.get cOrder.symbol.base).free =
          (cState.portfolio.get cOrder.symbol.base).free + cOrder.residual_base ∧
        (st'.portfolio.get cOrder.symbol.base).used =
          (cState.portfolio.get cOrder.symbol.base).used - cOrder.residual_base ∧
        (st'.portfolio.get cOrder.symbol.quote).free =
          (cState.portfolio.get cOrder.symbol.quote).free + cOrder.residual_quote ∧
        (st'.portfolio.get cOrder.symbol.quote).used =
          (cState.portfolio.get cOrder.symbol.quote).used - cOrder.residual_quote ∧
        ∀ a, a ≠ cOrder.symbol.base → a ≠ cOrder.symbol.quote →
          st'.portfolio a = cState.portfolio a)) :=
  cancel_order_spec cState "o1" cOrder 5 (by rfl) rfl
    (by show (0 : ℚ) ≤ 2; norm_num)
    (by decide)
    (by
      constructor
      · show (20 : ℚ) + 2 ≤ 22
        norm_num
      · exact Or.inl (by show (22 : ℚ) - (20 + 2) = 0; norm_num))
    (fun h => nomatch h)

/-- The order record written back by
`_rejected_for_insufficient_reserve`: terminal status by fill progress,
finish timestamp, reason comment, history entry, squashed booking. -/
def rejOrderOf (o : Order) (reason : OrderComment) (ts : ℕ) : Order :=
  let newStatus : OrderState :=
    if o.actual_filled = 0 then .rejected else .partially_rejected
  (({ o with
    status := newStatus
    ts_update := ts
    ts_finish := some ts
    comment := some reason } : Order).add_history
    { ts := ts, status := newStatus, comment := some reason }).squash_booking

/-- What `_rejected_for_insufficient_reserve` does, under the
reservation-soundness hypotheses: terminal status by fill progress,
squashed bookings, untouched accumulators and counters, residuals
released back to free. -/
theorem rejected_for_insufficient_reserve_spec
    (st : EngineState) (o : Order) (reason : OrderComment) (ts : ℕ)
    (hbq : o.symbol.base ≠ o.symbol.quote)
    (hqex : exactRelease (st.portfolio.get o.symbol.quote) o.residual_quote)
    (hbex : o.side = .sell →
      exactRelease (st.portfolio.get o.symbol.base) o.residual_base) :
    ∃ o', (rejected_for_insufficient_reserve st o reason ts).book.orders o.id = some o' ∧
      o'.status = (if o.actual_filled = 0 then OrderState.rejected
        else OrderState.partially_rejected) ∧
      o'.reserved_notion_left = 0 ∧
      o'.reserved_fee_left = 0 ∧
      o'.actual_filled = o.actual_filled ∧
      o'.actual_notion = o.actual_notion ∧
      o'.actual_fee = o.actual_fee ∧
      (rejected_for_insufficient_reserve st o reason ts).stats = st.stats ∧
      (o.side = .buy →
        ((rejected_for_insufficient_reserve st o reason ts).portfolio.get o.symbol.quote).free =
          (st.portfolio.get o.symbol.quote).free + o.residual_quote ∧
        ((rejected_for_insufficient_reserve st o reason ts).portfolio.get o.symbol.quote).used =
          (st.portfolio.get o.symbol.quote).used - o.residual_quote ∧
        ∀ a, a ≠ o.symbol.quote →
          (rejected_for_insufficient_reserve st o reason ts).portfolio a = st.portfolio a) ∧
      (o.side = .sell →
        ((rejected_for_insufficient_reserve st o reason ts).portfolio.get o.symbol.base).free =
          (st.portfolio.get o.symbol.base).free + o.residual_base ∧
        ((rejected_for_insufficient_reserve st o reason ts).portfolio.get o.symbol.base).used =
          (st.portfolio.get o.symbol.base).used - o.residual_base ∧
        ((rejected_for_insufficient_reserve st o reason ts).portfolio.get o.symbol.quote).free =
          (st.portfolio.get o.symbol.quote).free + o.residual_quote ∧
        ((rejected_for_insufficient_reserve st o reason ts).portfolio.get o.symbol.quote).used =
          (st.portfolio.get o.symbol.quote).used - o.residual_quote ∧
        ∀ a, a ≠ o.symbol.base → a ≠ o.symbol.quote →
          (rejected_for_insufficient_reserve st o reason ts).portfolio a = st.portfolio a) := by
  have hbook : (rejected_for_insufficient_reserve st o reason ts).book =
      st.book.update (rejOrderOf o reason ts) := rfl
  have hstats2 : (rejected_for_insufficient_reserve st o reason ts).stats =
      st.stats := rfl
  refine ⟨rejOrderOf o reason ts, ?_, rfl, rfl, rfl, rfl, rfl, rfl, hstats2, ?_, ?_⟩
  · rw [hbook]
    show (if o.id = (rejOrderOf o reason ts).id then some (rejOrderOf o reason ts)
      else st.book.orders o.id) = some (rejOrderOf o reason ts)
    rw [if_pos (show o.id = (rejOrderOf o reason ts).id from rfl)]
  · intro hs
    have hport : (rejected_for_insufficient_reserve st o reason ts).portfolio =
        (releaseP st.portfolio o.symbol.quote o.residual_quote).2 := by
      simp only [rejected_for_insufficient_reserve, hs]
    rw [hport, releaseP_exact _ _ _ hqex]
    refine ⟨?_, ?_, ?_⟩
    · simp [PortfolioMap.get, PortfolioMap.set]
    · simp [PortfolioMap.get, PortfolioMap.set]
    · intro a ha
      simp [PortfolioMap.get, PortfolioMap.set, ha]
  · intro hs
    have hbex2 := hbex hs
    have hport : (rejected_for_insufficient_reserve st o reason ts).portfolio =
        (releaseP (releaseP st.portfolio o.symbol.base o.residual_base).2
          o.symbol.quote o.residual_quote).2 := by
      simp only [rejected_for_insufficient_reserve, hs]
    rw [hport, releaseP_exact _ _ _ hbex2]
    dsimp only
    rw [releaseP_exact _ _ _ (show exactRelease
        (((st.portfolio.set ⟨o.symbol.base,
          (st.portfolio.get o.symbol.base).free + o.residual_base,
          (st.portfolio.get o.symbol.base).used - o.residual_base⟩).get
          o.symbol.quote)) o.residual_quote by
      rw [pGet_set_ne _ _ _ (Ne.symm hbq)]
      exact hqex)]
    dsimp only
    refine ⟨?_, ?_, ?_, ?_, ?_⟩
    · simp [PortfolioMap.get, PortfolioMap.set, hbq, Ne.symm hbq]
    · simp [PortfolioMap.get, PortfolioMap.set, hbq, Ne.symm hbq]
    · simp [PortfolioMap.get, PortfolioMap.set, hbq, Ne.symm hbq]
    · simp [PortfolioMap.get, PortfolioMap.set, hbq, Ne.symm hbq]
    · intro a hab haq
      simp [PortfolioMap.get, PortfolioMap.set, hab, haq]

/-- C3: when the mid-execution reservation check of
`process_single_order` fails (buy: `total(quote) + ε < fillable·px·(1 +
commission)`; sell: `total(base) + ε < fillable` or `total(quote) + ε <
fillable·px·commission`), the order transitions to `rejected` when
nothing was filled and `partially_rejected` otherwise, its residual
reservations are released back to `free`, the residual bookings are
squashed to 0, and no fill is executed: the actual accumulators and the
trade counters are unchanged. -/
theorem process_single_order_insufficient_reserve_rejects
    (cfg : Config) (st : EngineState) (o of : Order) (tp : TradingPair)
    (r : ℚ) (ts : ℕ) (fa lp : ℚ)
    (hstored : st.book.orders o.id = some of)
    (hopen : of.status.isOpen)
    (hneed : of.actual_filled < of.amount - epsFill)
    (hfa : (if slippage_simulate (if of.side = .buy then tp.ask_volume else tp.bid_volume) r <
        of.amount - of.actual_filled then
        slippage_simulate (if of.side = .buy then tp.ask_volume else tp.bid_volume) r
      else of.amount - of.actual_filled) = fa)
    (hfapos : 0 < fa)
    (hlp : of.type = .limit → of.limit_price = some lp ∧
      ((of.side = .buy ∧ tp.ask ≤ lp) ∨ (of.side = .sell ∧ lp ≤ tp.bid)))
    (hbq : of.symbol.base ≠ of.symbol.quote)
    (hqex : exactRelease (st.portfolio.get of.symbol.quote) of.residual_quote)
    (hbex : of.side = .sell →
      exactRelease (st.portfolio.get of.symbol.base) of.residual_base)
    (hrejbuy : of.side = .buy →
      (st.portfolio.get of.symbol.quote).total + epsFill <
        fa * tp.ask * (1 + cfg.commission))
    (hrejsell : of.side = .sell →
      ((st.portfolio.get of.symbol.base).total + epsFill < fa ∨
        (¬ ((st.portfolio.get of.symbol.base).total + epsFill < fa) ∧
          (st.portfolio.get of.symbol.quote).total + epsFill <
            fa * tp.bid * cfg.commission))) :
    ∃ st' o', process_single_order cfg st o tp r ts = .ok st' ∧
      st'.book.orders of.id = some o' ∧
      o'.status = (if of.actual_filled = 0 then OrderState.rejected
        else OrderState.partially_rejected) ∧
      o'.reserved_notion_left = 0 ∧
      o'.reserved_fee_left = 0 ∧
      o'.actual_filled = of.actual_filled ∧
      o'.actual_notion = of.actual_notion ∧
      o'.actual_fee = of.actual_fee ∧
      st'.stats = st.stats ∧
      (of.side = .buy →
        (st'.portfolio.get of.symbol.quote).free =
          (st.portfolio.get of.symbol.quote).free + of.residual_quote ∧
        (st'.portfolio.get of.symbol.quote).used =
          (st.portfolio.get of.symbol.quote).used - of.residual_quote ∧
        ∀ a, a ≠ of.symbol.quote → st'.portfolio a = st.portfolio a) ∧
      (of.side = .sell →
        (st'.portfolio.get of.symbol.base).free =
          (st.portfolio.get of.symbol.base).free + of.residual_base ∧
        (st'.portfolio.get of.symbol.base).used =
          (st.portfolio.get of.symbol.base).used - of.residual_base ∧
        (st'.portfolio.get of.symbol.quote).free =
          (st.portfolio.get of.symbol.quote).free + of.residual_quote ∧
        (st'.portfolio.get of.symbol.quote).used =
          (st.portfolio.get of.symbol.quote).used - of.residual_quote ∧
        ∀ a, a ≠ of.symbol.base → a ≠ of.symbol.quote →
          st'.portfolio a = st.portfolio a) := by
  simp only [process_single_order, hstored]
  rw [if_neg (show ¬ (¬ of.status.isOpen = true ∨
      of.amount - epsFill ≤ of.actual_filled) from fun h =>
    h.elim (fun h1 => h1 hopen) (fun h2 => absurd h2 (not_le.mpr hneed)))]
  rw [hfa]
  rw [if_neg (not_le.mpr hfapos)]
  have hfillE : (match of.type with
      | OrderType.market => Except.ok true
      | OrderType.limit =>
        match of.limit_price with
        | none => Except.error EngErr.missingLimitPrice
        | some lp1 =>
          Except.ok (decide ((of.side = .buy ∧ tp.ask ≤ lp1) ∨
            (of.side = .sell ∧ lp1 ≤ tp.bid)))) = Except.ok true := by
    rcases htype : of.type with _ | _
    · rfl
    · obtain ⟨hlpe, hcr⟩ := hlp htype
      rw [hlpe]
      simp only [decide_eq_true_eq]
      simp [hcr]
  rw [hfillE]
  dsimp only
  rw [if_neg (show ¬ (¬ (true : Bool) = true) from fun h => h rfl)]
  rcases hs : of.side with _ | _
  · simp only [eq_self_iff_true, if_true]
    rw [if_pos (hrejbuy hs)]
    obtain ⟨o', h1, h2, h3, h4, h5, h6, h7, h8, h9, h10⟩ :=
      rejected_for_insufficient_reserve_spec st of
        (.insufficientReserveBuy
          (fa * tp.ask * (1 + cfg.commission))
          (st.portfolio.get of.symbol.quote).total of.symbol.quote) ts
        hbq hqex hbex
    exact ⟨_, o', rfl, ⟨h1, h2, h3, h4, h5, h6, h7, h8, fun _ => h9 hs,
      fun h => absurd h (by simp)⟩⟩
  · simp only [show (OrderSide.sell = OrderSide.buy) = False from by simp, if_false]
    rcases hrejsell hs with hbshort | ⟨hnb, hfshort⟩
    · rw [if_pos hbshort]
      obtain ⟨o', h1, h2, h3, h4, h5, h6, h7, h8, h9, h10⟩ :=
        rejected_for_insufficient_reserve_spec st of
          (.insufficientReserveSellBase fa
            (st.portfolio.get of.symbol.base).total of.symbol.base) ts
          hbq hqex hbex
      exact ⟨_, o', rfl, ⟨h1, h2, h3, h4, h5, h6, h7, h8,
        fun h => absurd h (by simp), fun _ => h10 hs⟩⟩
    · rw [if_neg hnb, if_pos hfshort]
      obtain ⟨o', h1, h2, h3, h4, h5, h6, h7, h8, h9, h10⟩ :=
        rejected_for_insufficient_reserve_spec st of
          (.insufficientReserveSellFee (fa * tp.bid * cfg.commission)
            (st.portfolio.get of.symbol.quote).total of.symbol.quote) ts
          hbq hqex hbex
      exact ⟨_, o', rfl, ⟨h1, h2, h3, h4, h5, h6, h7, h8,
        fun h => absurd h (by simp), fun _ => h10 hs⟩⟩

/-- Concrete fixture: zero-commission configuration. -/
def cfg0 : Config := ⟨0, "USDT"⟩

/-- Concrete fixture: an open buy limit order whose quote reservation
(1 USDT) is far below what the next fill would need (20 USDT). -/
def eOrder : Order :=
  { id := "o1", symbol := wSym, side := .buy, type := .limit, amount := 2,
    limit_price := some 10, notion_currency := "USDT",
    fee_currency := "USDT", fee_rate := 0, status := .new,
    initial_booked_notion := 20, reserved_notion_left := 1,
    initial_booked_fee := 0, reserved_fee_left := 0,
    ts_create := 1, ts_update := 1 }

/-- Concrete fixture: tampered portfolio — only 1 USDT total, all of it
reserved. -/
def ePortfolio : PortfolioMap :=
  fun a => if a = "USDT" then (0, 1) else (0, 0)

/-- Concrete fixture: engine state storing `eOrder`. -/
def eState : EngineState :=
  ⟨ePortfolio, OrderBook.empty.add eOrder, wMkt, zeroStats,
    fun _ => {}, fun _ => {}⟩

/-- Witness for C3: the tampered buy order is rejected by the
mid-execution reservation check. -/
theorem process_single_order_insufficient_reserve_rejects_witness :
    ∃ st' o', process_single_order cfg0 eState eOrder wTp 1 7 = .ok st' ∧
      st'.book.orders eOrder.id = some o' ∧
      o'.status = (if eOrder.actual_filled = 0 then OrderState.rejected
        else OrderState.partially_rejected) ∧
      o'.reserved_notion_left = 0 ∧
      o'.reserved_fee_left = 0 ∧
      o'.actual_filled = eOrder.actual_filled ∧
      o'.actual_notion = eOrder.actual_notion ∧
      o'.actual_fee = eOrder.actual_fee ∧
      st'.stats = eState.stats ∧
      (eOrder.side = .buy →
        (st'.portfolio.get eOrder.symbol.quote).free =
          (eState.portfolio.get eOrder.symbol.quote).free + eOrder.residual_quote ∧
        (st'.portfolio.get eOrder.symbol.quote).used =
          (eState.portfolio.get eOrder.symbol.quote).used - eOrder.residual_quote ∧
        ∀ a, a ≠ eOrder.symbol.quote → st'.portfolio a = eState.portfolio a) ∧
      (eOrder.side = .sell →
        (st'.portfolio.get eOrder.symbol.base).free =
          (eState.portfolio.get eOrder.symbol.base).free + eOrder.residual_base ∧
        (st'.portfolio.get eOrder.symbol.base).used =
          (eState.portfolio.get eOrder.symbol.base).used - eOrder.residual_base ∧
        (st'.portfolio.get eOrder.symbol.quote).free =
          (eState.portfolio.get eOrder.symbol.quote).free + eOrder.residual_quote ∧
        (st'.portfolio.get eOrder.symbol.quote).used =
          (eState.portfolio.get eOrder.symbol.quote).used - eOrder.residual_quote ∧
        ∀ a, a ≠ eOrder.symbol.base → a ≠ eOrder.symbol.quote →
          st'.portfolio a = eState.portfolio a) :=
  process_single_order_insufficient_reserve_rejects cfg0 eState eOrder eOrder wTp
    1 7 2 10
    rfl rfl
    (by show (0 : ℚ) < 2 - epsFill; norm_num [epsFill])
    (by
      rw [if_neg (show ¬ (slippage_simulate
          (if eOrder.side = .buy then wTp.ask_volume else wTp.bid_volume) 1 <
          eOrder.amount - eOrder.actual_filled) by
        show ¬ (slippage_simulate 5 1 < (2 : ℚ) - 0)
        norm_num [slippage_simulate])]
      show (2 : ℚ) - 0 = 2
      norm_num)
    (by norm_num)
    (fun _ => ⟨rfl, Or.inl ⟨rfl, by show (10 : ℚ) ≤ 10; norm_num⟩⟩)
    (by decide)
    (by
      constructor
      · show (1 : ℚ) + 0 ≤ 1
        norm_num
      · exact Or.inl (by show (1 : ℚ) - (1 + 0) = 0; norm_num))
    (fun h => nomatch h)
    (fun _ => by
      show (0 : ℚ) + 1 + epsFill < 2 * 10 * (1 + cfg0.commission)
      norm_num [epsFill, cfg0])
    (fun h => nomatch h)

/-- The well-formedness invariant of the order store: records are keyed
by their own id, and every stored OPEN order is present in both open
indexes. -/
def BookInv (ob : OrderBook) : Prop :=
  (∀ oid o, ob.orders oid = some o → o.id = oid) ∧
  (∀ oid o, ob.orders oid = some o → o.status.isOpen →
    ob.openAll oid = true ∧ ob.openSym o.symbol oid = true)

/-- `OrderBook.add` preserves the invariant for any order. -/
theorem bookInv_add (ob : OrderBook) (o : Order) (h : BookInv ob) :
    BookInv (ob.add o) := by
  obtain ⟨hkey, hidx⟩ := h
  unfold OrderBook.add OrderBook.indexAdd
  constructor
  · intro oid o1 h1
    by_cases hopen : o.status.isOpen
    · rw [if_pos hopen] at h1
      dsimp only at h1
      by_cases he : oid = o.id
      · rw [if_pos he] at h1
        cases h1
        exact he.symm
      · rw [if_neg he] at h1
        exact hkey oid o1 h1
    · rw [if_neg hopen] at h1
      dsimp only at h1
      by_cases he : oid = o.id
      · rw [if_pos he] at h1
        cases h1
        exact he.symm
      · rw [if_neg he] at h1
        exact hkey oid o1 h1
  · intro oid o1 h1 hop
    by_cases hopen : o.status.isOpen
    · rw [if_pos hopen]
      rw [if_pos hopen] at h1
      dsimp only at h1 ⊢
      by_cases he : oid = o.id
      · rw [if_pos he] at h1
        cases h1
        rw [if_pos he]
        refine ⟨rfl, ?_⟩
        rw [if_pos ⟨rfl, he⟩]
      · rw [if_neg he] at h1
        obtain ⟨ha, hb⟩ := hidx oid o1 h1 hop
        rw [if_neg he, ha]
        refine ⟨rfl, ?_⟩
        split
        · rfl
        · exact hb
    · rw [if_neg hopen]
      rw [if_neg hopen] at h1
      dsimp only at h1
      by_cases he : oid = o.id
      · rw [if_pos he] at h1
        cases h1
        exact absurd hop hopen
      · rw [if_neg he] at h1
        exact hidx oid o1 h1 hop

/-- `OrderBook.update` with a CLOSED order preserves the invariant. -/
theorem bookInv_update_closed (ob : OrderBook) (o : Order) (h : BookInv ob)
    (hcl : ¬ o.status.isOpen = true) : BookInv (ob.update o) := by
  obtain ⟨hkey, hidx⟩ := h
  unfold OrderBook.update
  constructor
  · intro oid o1 h1
    dsimp only at h1
    by_cases he : oid = o.id
    · rw [if_pos he] at h1
      cases h1
      exact he.symm
    · rw [if_neg he] at h1
      exact hkey oid o1 h1
  · intro oid o1 h1 hop
    dsimp only at h1
    by_cases he : oid = o.id
    · rw [if_pos he] at h1
      cases h1
      exact absurd hop hcl
    · rw [if_neg he] at h1
      exact hidx oid o1 h1 hop

/-- `OrderBook.update` with an OPEN order whose id and symbol come from
an already-stored open order preserves the invariant (the fill path of
`process_single_order`). -/
theorem bookInv_update_open (ob : OrderBook) (o o0 : Order) (k : String)
    (h : BookInv ob)
    (h0 : ob.orders k = some o0) (h0open : o0.status.isOpen = true)
    (hid : o.id = o0.id) (hsym : o.symbol = o0.symbol) :
    BookInv (ob.update o) := by
  obtain ⟨hkey, hidx⟩ := h
  have hk : o0.id = k := hkey k o0 h0
  obtain ⟨ha0, hb0⟩ := hidx k o0 h0 h0open
  unfold OrderBook.update
  constructor
  · intro oid o1 h1
    dsimp only at h1
    by_cases he : oid = o.id
    · rw [if_pos he] at h1
      cases h1
      exact he.symm
    · rw [if_neg he] at h1
      exact hkey oid o1 h1
  · intro oid o1 h1 hop
    dsimp only at h1
    by_cases he : oid = o.id
    · rw [if_pos he] at h1
      cases h1
      have hoid : oid = k := by rw [he, hid, hk]
      subst hoid
      exact ⟨ha0, by rw [hsym]; exact hb0⟩
    · rw [if_neg he] at h1
      exact hidx oid o1 h1 hop

/-- `OrderBook.remove` preserves the invariant. -/
theorem bookInv_remove (ob : OrderBook) (oid : String) (h : BookInv ob) :
    BookInv (ob.remove oid) := by
  obtain ⟨hkey, hidx⟩ := h
  unfold OrderBook.remove
  rcases hx : ob.orders oid with _ | ox
  · exact ⟨hkey, hidx⟩
  · have hoxid : ox.id = oid := hkey oid ox hx
    dsimp only
    by_cases hcase : ox.status.isOpen = true
    · rw [if_pos hcase]
      constructor
      · intro k o1 h1
        simp only [OrderBook.indexRem] at h1
        by_cases he : k = oid
        · rw [if_pos he] at h1
          cases h1
        · rw [if_neg he] at h1
          exact hkey k o1 h1
      · intro k o1 h1 hop
        simp only [OrderBook.indexRem] at h1 ⊢
        by_cases he : k = oid
        · rw [if_pos he] at h1
          cases h1
        · rw [if_neg he] at h1
          obtain ⟨ha, hb⟩ := hidx k o1 h1 hop
          have hne : ¬ (k = ox.id) := by
            rw [hoxid]
            exact he
          constructor
          · rw [if_neg hne]
            exact ha
          · rw [if_neg (show ¬ (o1.symbol = ox.symbol ∧ k = ox.id) from
              fun hc => hne hc.2)]
            exact hb
    · rw [if_neg hcase]
      constructor
      · intro k o1 h1
        dsimp only at h1
        by_cases he : k = oid
        · rw [if_pos he] at h1
          cases h1
        · rw [if_neg he] at h1
          exact hkey k o1 h1
      · intro k o1 h1 hop
        dsimp only at h1
        by_cases he : k = oid
        · rw [if_pos he] at h1
          cases h1
        · rw [if_neg he] at h1
          exact hidx k o1 h1 hop

/-- The empty book satisfies the invariant. -/
theorem bookInv_empty : BookInv OrderBook.empty := by
  constructor
  · intro oid o h
    cases h
  · intro oid o h
    cases h

/-- A successful `create_order` changes the book exactly by `add`. -/
theorem create_order_book (cfg : Config) (st : EngineState)
    (symbol : SymbolPair) (side : OrderSide) (type_ : OrderType)
    (amount : ℚ) (limit_price : Option ℚ) (ts : ℕ) (oid : String)
    (st' : EngineState) (o : Order)
    (h : create_order cfg st symbol side type_ amount limit_price ts oid =
      .ok (st', o)) :
    st'.book = st.book.add o := by
  simp only [create_order] at h
  split at h
  · exact absurd h (by simp)
  split at h
  · exact absurd h (by simp)
  split at h
  · exact absurd h (by simp)
  split at h
  · exact absurd h (by simp)
  split at h
  · exact absurd h (by simp)
  · cases h
    rfl

/-- The order persisted by `_rejected_for_insufficient_reserve` is the
squashed rejection record. -/
theorem rejected_for_insufficient_reserve_book (st : EngineState)
    (o : Order) (reason : OrderComment) (ts : ℕ) :
    (rejected_for_insufficient_reserve st o reason ts).book =
      st.book.update (rejOrderOf o reason ts) := rfl

/-- The rejection record is terminal (never OPEN). -/
theorem rejOrderOf_closed (o : Order) (reason : OrderComment) (ts : ℕ) :
    ¬ (rejOrderOf o reason ts).status.isOpen = true := by
  simp only [rejOrderOf, Order.add_history, Order.squash_booking]
  by_cases hf : o.actual_filled = 0
  · rw [if_pos hf]; decide
  · rw [if_neg hf]; decide

/-- `_rejected_for_insufficient_reserve` preserves the book invariant. -/
theorem rejected_for_insufficient_reserve_inv (st : EngineState)
    (o : Order) (reason : OrderComment) (ts : ℕ)
    (hinv : BookInv st.book) :
    BookInv (rejected_for_insufficient_reserve st o reason ts).book := by
  rw [rejected_for_insufficient_reserve_book]
  exact bookInv_update_closed _ _ hinv (rejOrderOf_closed o reason ts)

/-- A successful `cancel_order` preserves the book invariant: the only
book change is `update` with a terminal (canceled / partially canceled)
order. -/
theorem cancel_order_inv (st : EngineState) (oid : String) (ts : ℕ)
    (st' : EngineState) (o2 : Order) (rb rq : ℚ)
    (h : cancel_order st oid ts = .ok (st', o2, rb, rq))
    (hinv : BookInv st.book) : BookInv st'.book := by
  simp only [cancel_order] at h
  split at h
  · exact absurd h (by simp)
  rename_i o heq
  split at h
  · exact absurd h (by simp)
  by_cases hf : o.actual_filled = 0
  · simp only [if_pos hf] at h
    split at h
    · cases h
      refine bookInv_update_closed _ _ hinv ?_
      simp only [Order.add_history, Order.squash_booking]
      decide
    · exact absurd h (by simp)
  · simp only [if_neg hf] at h
    split at h
    · cases h
      refine bookInv_update_closed _ _ hinv ?_
      simp only [Order.add_history, Order.squash_booking]
      decide
    · exact absurd h (by simp)

/-- `settle_fill` on a stored open order preserves the book invariant:
it only `update`s a record carrying the same id and symbol, open
(partially filled) or closed (filled). -/
theorem settle_fill_inv (cfg : Config) (st : EngineState) (of : Order)
    (px fillable_amount : ℚ) (order_is_new order_will_close : Bool)
    (ts : ℕ) (k : String)
    (hinv : BookInv st.book)
    (h0 : st.book.orders k = some of)
    (h0open : of.status.isOpen = true) :
    BookInv (settle_fill cfg st of px fillable_amount order_is_new
      order_will_close ts).book := by
  rcases hside : of.side with _ | _ <;>
    rcases hwc : order_will_close with _ | _ <;>
      simp only [settle_fill, hside, hwc, Bool.false_eq_true, if_false,
        if_true, Order.add_history, Order.squash_booking]
  · exact bookInv_update_open _ _ of k hinv h0 h0open rfl rfl
  · exact bookInv_update_closed _ _ hinv (by simp [OrderState.isOpen])
  · exact bookInv_update_open _ _ of k hinv h0 h0open rfl rfl
  · exact bookInv_update_closed _ _ hinv (by simp [OrderState.isOpen])

/-- `buy` and `sell` are distinct constructors (rewrite helper). -/
theorem side_buy_ne_sell : ¬ (OrderSide.buy = OrderSide.sell) :=
  fun hco => OrderSide.noConfusion hco

/-- `sell` and `buy` are distinct constructors (rewrite helper). -/
theorem side_sell_ne_buy : ¬ (OrderSide.sell = OrderSide.buy) :=
  fun hco => OrderSide.noConfusion hco

set_option maxHeartbeats 1000000 in
/-- A successful `process_single_order` preserves the book invariant:
every branch leaves the book unchanged, persists a terminal rejection,
or settles a fill for the stored open order. -/
theorem process_single_order_inv (cfg : Config) (st : EngineState)
    (o : Order) (tp : TradingPair) (r : ℚ) (ts : ℕ) (st' : EngineState)
    (h : process_single_order cfg st o tp r ts = .ok st')
    (hinv : BookInv st.book) : BookInv st'.book := by
  simp only [process_single_order] at h
  split at h
  · exact absurd h (by simp)
  rename_i of heq
  split at h
  · cases h; exact hinv
  rename_i hguard
  have hopen : of.status.isOpen = true := by
    by_contra hc
    exact hguard (Or.inl hc)
  rcases hside : of.side with _ | _ <;>
    simp only [hside, side_buy_ne_sell, side_sell_ne_buy,
      if_true, if_false, not_true, not_false_iff,
      true_and, false_and, and_true, and_false, or_false, false_or] at h <;>
    rcases htype : of.type with _ | _ <;>
      simp only [htype, eq_self_iff_true, not_true, if_false,
        decide_eq_true_eq] at h
  · split at h
    · split at h
      · cases h; exact hinv
      · split at h
        · cases h
          exact rejected_for_insufficient_reserve_inv _ _ _ _ hinv
        · cases h
          exact settle_fill_inv _ _ _ _ _ _ _ _ _ hinv heq hopen
    · split at h
      · cases h; exact hinv
      · split at h
        · cases h
          exact rejected_for_insufficient_reserve_inv _ _ _ _ hinv
        · cases h
          exact settle_fill_inv _ _ _ _ _ _ _ _ _ hinv heq hopen
  · split at h
    · split at h
      · cases h; exact hinv
      · split at h
        · exact absurd h (by simp)
        · split at h
          · cases h; exact hinv
          · split at h
            · cases h
              exact rejected_for_insufficient_reserve_inv _ _ _ _ hinv
            · cases h
              exact settle_fill_inv _ _ _ _ _ _ _ _ _ hinv heq hopen
    · split at h
      · cases h; exact hinv
      · split at h
        · exact absurd h (by simp)
        · split at h
          · cases h; exact hinv
          · split at h
            · cases h
              exact rejected_for_insufficient_reserve_inv _ _ _ _ hinv
            · cases h
              exact settle_fill_inv _ _ _ _ _ _ _ _ _ hinv heq hopen
  · split at h
    · split at h
      · cases h; exact hinv
      · split at h
        · cases h
          exact rejected_for_insufficient_reserve_inv _ _ _ _ hinv
        · split at h
          · cases h
            exact rejected_for_insufficient_reserve_inv _ _ _ _ hinv
          · cases h
            exact settle_fill_inv _ _ _ _ _ _ _ _ _ hinv heq hopen
    · split at h
      · cases h; exact hinv
      · split at h
        · cases h
          exact rejected_for_insufficient_reserve_inv _ _ _ _ hinv
        · split at h
          · cases h
            exact rejected_for_insufficient_reserve_inv _ _ _ _ hinv
          · cases h
            exact settle_fill_inv _ _ _ _ _ _ _ _ _ hinv heq hopen
  · split at h
    · split at h
      · cases h; exact hinv
      · split at h
        · exact absurd h (by simp)
        · split at h
          · cases h; exact hinv
          · split at h
            · cases h
              exact rejected_for_insufficient_reserve_inv _ _ _ _ hinv
            · split at h
              · cases h
                exact rejected_for_insufficient_reserve_inv _ _ _ _ hinv
              · cases h
                exact settle_fill_inv _ _ _ _ _ _ _ _ _ hinv heq hopen
    · split at h
      · cases h; exact hinv
      · split at h
        · exact absurd h (by simp)
        · split at h
          · cases h; exact hinv
          · split at h
            · cases h
              exact rejected_for_insufficient_reserve_inv _ _ _ _ hinv
            · split at h
              · cases h
                exact rejected_for_insufficient_reserve_inv _ _ _ _ hinv
              · cases h
                exact settle_fill_inv _ _ _ _ _ _ _ _ _ hinv heq hopen

/-- `expire_single` preserves the book invariant: it either leaves the
book alone or `update`s a terminal (expired / partially expired)
order. -/
theorem expire_single_inv (st : EngineState) (o : Order)
    (now_ms cutoff : ℕ) (hinv : BookInv st.book) :
    BookInv (expire_single st o now_ms cutoff).book := by
  by_cases hop : o.status.isOpen = true
  · by_cases hts : o.ts_update < cutoff
    · simp only [expire_single, hop, hts, if_true]
      refine bookInv_update_closed _ _ hinv ?_
      by_cases hn : o.status = OrderState.new
      · simp [hn, Order.add_history, OrderState.isOpen]
      · simp [hn, Order.add_history, OrderState.isOpen]
    · simp only [expire_single, hop, hts, if_true, if_false]
      exact hinv
  · simp only [expire_single, hop, if_false]
    exact hinv

/-- `_update_deposit_account` never touches the order book. -/
theorem update_deposit_account_book (cfg : Config) (st : EngineState)
    (asset : String) (amount : ℚ) (st2 : EngineState)
    (h : update_deposit_account cfg st asset amount = .ok st2) :
    st2.book = st.book := by
  simp only [update_deposit_account] at h
  repeat
    first
    | split at h
    | (cases h; rfl)
    | (cases h)

/-- `_update_withdrawal_account` never touches the order book. -/
theorem update_withdrawal_account_book (cfg : Config) (st : EngineState)
    (asset : String) (amount : ℚ) (st2 : EngineState)
    (h : update_withdrawal_account cfg st asset amount = .ok st2) :
    st2.book = st.book := by
  simp only [update_withdrawal_account] at h
  repeat
    first
    | split at h
    | (cases h; rfl)
    | (cases h)

/-- A successful `deposit_asset` never touches the order book. -/
theorem deposit_asset_book (cfg : Config) (st : EngineState)
    (asset : String) (amount : ℚ) (st' : EngineState) (bal : AssetBalance)
    (h : deposit_asset cfg st asset amount = .ok (st', bal)) :
    st'.book = st.book := by
  simp only [deposit_asset] at h
  split at h
  · exact absurd h (by simp)
  split at h
  · exact absurd h (by simp)
  split at h
  · exact absurd h (by simp)
  rename_i st2 heq
  cases h
  exact (update_deposit_account_book _ _ _ _ _ heq).trans rfl

/-- A successful `withdrawal_asset` never touches the order book. -/
theorem withdrawal_asset_book (cfg : Config) (st : EngineState)
    (asset : String) (amount : ℚ) (st' : EngineState) (bal : AssetBalance)
    (h : withdrawal_asset cfg st asset amount = .ok (st', bal)) :
    st'.book = st.book := by
  simp only [withdrawal_asset] at h
  split at h
  · exact absurd h (by simp)
  split at h
  · exact absurd h (by simp)
  split at h
  · exact absurd h (by simp)
  split at h
  · exact absurd h (by simp)
  rename_i st2 heq
  cases h
  exact (update_withdrawal_account_book _ _ _ _ _ heq).trans rfl

/-- A successful `set_balance` never touches the order book. -/
theorem set_balance_book (cfg : Config) (st : EngineState)
    (asset : String) (free used : ℚ) (st' : EngineState)
    (bal : AssetBalance)
    (h : set_balance cfg st asset free used = .ok (st', bal)) :
    st'.book = st.book := by
  simp only [set_balance] at h
  repeat
    first
    | split at h
    | (cases h; rfl)
    | (cases h)

/-- A successful `set_ticker` never touches the order book. -/
theorem set_ticker_book (st : EngineState) (symbol : SymbolPair)
    (price : ℚ) (bid_volume ask_volume : Option ℚ) (ts : ℕ)
    (st' : EngineState) (tp : TradingPair)
    (h : set_ticker st symbol price bid_volume ask_volume ts =
      .ok (st', tp)) :
    st'.book = st.book := by
  simp only [set_ticker] at h
  repeat
    first
    | split at h
    | (cases h; rfl)
    | (cases h)

/-- One engine operation, as a transition relation on durable state:
order placement, cancelation, settlement, inactivity expiry (one listed
order per step, as in the `expire_orders_older_than` loop), the admin
operations, and `reset`. -/
inductive Step (cfg : Config) : EngineState → EngineState → Prop where
  | create (st st' : EngineState) (symbol : SymbolPair) (side : OrderSide)
      (type_ : OrderType) (amount : ℚ) (limit_price : Option ℚ)
      (ts : ℕ) (oid : String) (o : Order)
      (h : create_order cfg st symbol side type_ amount limit_price ts oid =
        .ok (st', o)) : Step cfg st st'
  | cancel (st st' : EngineState) (oid : String) (ts : ℕ) (o2 : Order)
      (rb rq : ℚ) (h : cancel_order st oid ts = .ok (st', o2, rb, rq)) :
      Step cfg st st'
  | process (st st' : EngineState) (o : Order) (tp : TradingPair) (r : ℚ)
      (ts : ℕ) (h : process_single_order cfg st o tp r ts = .ok st') :
      Step cfg st st'
  | expire (st : EngineState) (o : Order) (now_ms cutoff : ℕ) :
      Step cfg st (expire_single st o now_ms cutoff)
  | deposit (st st' : EngineState) (asset : String) (amount : ℚ)
      (bal : AssetBalance)
      (h : deposit_asset cfg st asset amount = .ok (st', bal)) :
      Step cfg st st'
  | withdraw (st st' : EngineState) (asset : String) (amount : ℚ)
      (bal : AssetBalance)
      (h : withdrawal_asset cfg st asset amount = .ok (st', bal)) :
      Step cfg st st'
  | setBal (st st' : EngineState) (asset : String) (free used : ℚ)
      (bal : AssetBalance)
      (h : set_balance cfg st asset free used = .ok (st', bal)) :
      Step cfg st st'
  | setTick (st st' : EngineState) (symbol : SymbolPair) (price : ℚ)
      (bid_volume ask_volume : Option ℚ) (ts : ℕ) (tp : TradingPair)
      (h : set_ticker st symbol price bid_volume ask_volume ts =
        .ok (st', tp)) : Step cfg st st'
  | doReset (st : EngineState) : Step cfg st (reset_state st)

/-- Every engine operation preserves the book invariant. -/
theorem step_preserves_book_inv (cfg : Config) (s s' : EngineState)
    (hs : Step cfg s s') (hinv : BookInv s.book) : BookInv s'.book := by
  cases hs with
  | create st2 symbol side type_ amount limit_price ts oid o h =>
    rw [create_order_book cfg s symbol side type_ amount limit_price ts
      oid s' o h]
    exact bookInv_add _ _ hinv
  | cancel st2 oid ts o2 rb rq h =>
    exact cancel_order_inv s oid ts s' o2 rb rq h hinv
  | process st2 o tp r ts h =>
    exact process_single_order_inv cfg s o tp r ts s' h hinv
  | expire o now_ms cutoff =>
    exact expire_single_inv s o now_ms cutoff hinv
  | deposit st2 asset amount bal h =>
    rw [deposit_asset_book cfg s asset amount s' bal h]
    exact hinv
  | withdraw st2 asset amount bal h =>
    rw [withdrawal_asset_book cfg s asset amount s' bal h]
    exact hinv
  | setBal st2 asset free used bal h =>
    rw [set_balance_book cfg s asset free used s' bal h]
    exact hinv
  | setTick st2 symbol price bid_volume ask_volume ts tp h =>
    rw [set_ticker_book s symbol price bid_volume ask_volume ts s' tp h]
    exact hinv
  | doReset =>
    exact bookInv_empty

/-- **C2** (amended direction): in every state reachable by engine
operations from a reset, each stored OPEN order's id is a member of
both the `open:set` index and the `open:{symbol}` index for its symbol.
(The converse de-indexing direction of the spec's iff fails — see the
counterexample theorem.) -/
theorem open_orders_always_indexed (cfg : Config) (init st : EngineState)
    (hreach : Relation.ReflTransGen (Step cfg) (reset_state init) st) :
    ∀ oid o, st.book.orders oid = some o → o.status.isOpen = true →
      st.book.openAll oid = true ∧ st.book.openSym o.symbol oid = true := by
  have hinv : BookInv st.book := by
    induction hreach with
    | refl => exact bookInv_empty
    | tail hab hbc ih => exact step_preserves_book_inv _ _ _ hbc ih
  exact hinv.2

/-- Concrete fixture: the freshly reset engine state over the BTC/USDT
market (note `reset_state xReset = xReset` definitionally). -/
def xReset : EngineState :=
  ⟨fun _ => (0, 0), OrderBook.empty, wMkt, zeroStats, fun _ => {}, fun _ => {}⟩

/-- State after crediting 100 USDT via `set_balance`. -/
def xSt1 : EngineState :=
  { xReset with portfolio := xReset.portfolio.set ⟨"USDT", 100, 0⟩ }

/-- Funding step of the counterexample trace. -/
theorem xstep1 : set_balance cfg0 xReset "USDT" 100 0 =
    .ok (xSt1, ⟨"USDT", 100, 0⟩) := rfl

/-- `limit` and `market` are distinct constructors (rewrite helper). -/
theorem limit_ne_market : ¬ (OrderType.limit = OrderType.market) :=
  fun hco => OrderType.noConfusion hco

/-- The open buy-limit order persisted by the counterexample's
`create_order` call (2 BTC at 10 USDT, zero commission). -/
def xOrd : Order :=
  { id := "o1", symbol := wSym, side := .buy, type := .limit, amount := 2,
    limit_price := some 10, notion_currency := "USDT",
    fee_currency := "USDT", fee_rate := 0, status := .new,
    initial_booked_notion := 20, reserved_notion_left := 20,
    initial_booked_fee := 0, reserved_fee_left := 0,
    ts_create := 5, ts_update := 5 }

/-- State after placing the order: 20 USDT moved `free → used`, the
order stored and indexed as open. -/
def xSt2 : EngineState :=
  { xSt1 with
    portfolio := xSt1.portfolio.set ⟨"USDT", 80, 20⟩
    book := xSt1.book.add xOrd }

/-- Order-placement step of the counterexample trace. -/
theorem xstep2 : create_order cfg0 xSt1 wSym .buy .limit 2 (some 10) 5 "o1" =
    .ok (xSt2, xOrd) := by
  simp only [create_order, cfg0, xSt1, xReset, wMkt, wTp, wSym]
  norm_num [MarketStore.hasTicker, MarketStore.fetch_ticker,
    MarketStore.lastPrice, badLimitArg, PortfolioMap.get, PortfolioMap.set,
    reserveP, xSt1, xReset, wMkt, wTp, wSym, xSt2, xOrd, OrderBook.add,
    OrderBook.indexAdd, OrderBook.empty, zeroStats, OrderState.isOpen,
    limit_ne_market]

/-- The canceled order record persisted by the counterexample's
`cancel_order` call. -/
def xOrd2 : Order :=
  { xOrd with
    status := .canceled
    ts_update := 7
    ts_finish := some 7
    comment := some .canceledByUser
    reserved_notion_left := 0
    reserved_fee_left := 0
    history := [{ ts := 7, status := .canceled, comment := some .canceledByUser }] }

/-- State after the cancelation: the 20 USDT reservation released, the
canceled order written back — but the open indexes untouched. -/
def xSt3 : EngineState :=
  { xSt2 with
    portfolio := xSt2.portfolio.set ⟨"USDT", 100, 0⟩
    book := xSt2.book.update xOrd2 }

/-- Cancelation step of the counterexample trace. -/
theorem xstep3 : cancel_order xSt2 "o1" 7 = .ok (xSt3, xOrd2, 0, 20) := by
  simp only [cancel_order, xSt2, xSt1, xReset, xOrd, wMkt, wTp, wSym,
    OrderBook.add, OrderBook.indexAdd, OrderBook.empty]
  norm_num [OrderState.isOpen, Order.residual_quote, Order.residual_base,
    Order.amount_remain, releaseP, releaseBal, dustEps, PortfolioMap.get,
    PortfolioMap.set, Order.add_history, Order.squash_booking,
    OrderBook.update, xSt3, xSt2, xSt1, xReset, xOrd2, xOrd, wSym, wMkt,
    wTp, OrderBook.add, OrderBook.indexAdd, OrderBook.empty, zeroStats]

/-- **C2** counterexample to the claimed iff: in the reachable state
after reset → fund → place a buy-limit order → cancel it, the stored
order `o1` is `canceled` (not OPEN), yet its id is still a member of
both the `open:set` and the `open:BTC/USDT` index — `update` never
de-indexes and `cancel_order` never calls `remove`. -/
theorem canceled_order_still_indexed_counterexample :
    Relation.ReflTransGen (Step cfg0) (reset_state xReset) xSt3 ∧
    xSt3.book.orders "o1" = some xOrd2 ∧
    xOrd2.status.isOpen = false ∧
    xSt3.book.openAll "o1" = true ∧
    xSt3.book.openSym wSym "o1" = true := by
  refine ⟨?_, rfl, rfl, rfl, rfl⟩
  exact Relation.ReflTransGen.tail
    (Relation.ReflTransGen.tail
      (Relation.ReflTransGen.single
        (Step.setBal (reset_state xReset) xSt1 "USDT" 100 0
          ⟨"USDT", 100, 0⟩ xstep1))
      (Step.create xSt1 xSt2 wSym .buy .limit 2 (some 10) 5 "o1" xOrd
        xstep2))
    (Step.cancel xSt2 xSt3 "o1" 7 xOrd2 0 20 xstep3)

/-- Witness for C2's amended theorem: after the concrete
reset → fund → create trace, the stored open order `o1` is indexed in
both open index sets; the reachability hypothesis is discharged by the
explicit step chain and the stored-open hypotheses by `rfl`. -/
theorem open_orders_always_indexed_witness :
    xSt2.book.openAll "o1" = true ∧
    xSt2.book.openSym wSym "o1" = true :=
  open_orders_always_indexed cfg0 xReset xSt2
    (Relation.ReflTransGen.tail
      (Relation.ReflTransGen.single
        (Step.setBal (reset_state xReset) xSt1 "USDT" 100 0
          ⟨"USDT", 100, 0⟩ xstep1))
      (Step.create xSt1 xSt2 wSym .buy .limit 2 (some 10) 5 "o1" xOrd
        xstep2))
    "o1" xOrd rfl rfl
